import Mathlib

/-!
Verification of the sponsor-discovery pipeline of the sponsormatch repository.

The TypeScript sources are shallowly embedded as executable Lean functions:
strings are `String`/`List Char`, JavaScript `undefined`/`null` become
`Option`, and each regular-expression test or replacement from the source is
translated into an explicit character-list matcher whose doc comment quotes
the original pattern.  Network fetches are abstracted by passing the fetched
data (anchor lists, DOM fragments, strategy outputs) as arguments.
-/

set_option maxRecDepth 10000

namespace SponsorScrape

/-- JavaScript regex class whitespace characters relevant to this code base
(ASCII subset of the regex class for backslash-s). -/
def isWsChar (c : Char) : Bool :=
  c = ' ' || c = '\t' || c = '\n' || c = '\r' || c = '\x0b' || c = '\x0c'

/-- ASCII digit 0-9. -/
def isDigitCh (c : Char) : Bool := '0' ≤ c && c ≤ '9'

/-- ASCII lowercase letter. -/
def isLowerCh (c : Char) : Bool := 'a' ≤ c && c ≤ 'z'

/-- ASCII uppercase letter. -/
def isUpperCh (c : Char) : Bool := 'A' ≤ c && c ≤ 'Z'

/-- ASCII letter. -/
def isAlphaCh (c : Char) : Bool := isLowerCh c || isUpperCh c

/-- Character of the case-insensitive regex class [a-z0-9]. -/
def isAlnumCh (c : Char) : Bool := isAlphaCh c || isDigitCh c

/-- Regex word character (backslash-w): letter, digit or underscore. -/
def isWordCh (c : Char) : Bool := isAlnumCh c || c = '_'

/-- Hexadecimal digit of the regex class [a-f0-9] (with the /i flag). -/
def isHexCh (c : Char) : Bool :=
  isDigitCh c || ('a' ≤ c && c ≤ 'f') || ('A' ≤ c && c ≤ 'F')

/-- ASCII lower-casing of one character (JS String.toLowerCase on the
ASCII inputs this code processes). -/
def toLowerCh (c : Char) : Char :=
  if isUpperCh c then Char.ofNat (c.toNat + 32) else c

/-- ASCII upper-casing of one character. -/
def toUpperCh (c : Char) : Char :=
  if isLowerCh c then Char.ofNat (c.toNat - 32) else c

/-- Lower-case every character of a list. -/
def lowers (l : List Char) : List Char := l.map toLowerCh

/-- JS String.trim: strip whitespace from both ends. -/
def trimL (l : List Char) : List Char :=
  ((l.dropWhile isWsChar).reverse.dropWhile isWsChar).reverse

/-- Does the list start with the given pattern of literal characters? -/
def hasLead : List Char → List Char → Bool
  | [], _ => true
  | _ :: _, [] => false
  | p :: ps, c :: cs => p = c && hasLead ps cs

/-- Does the pattern occur as a contiguous sublist (JS String.includes)? -/
def containsL (pat : List Char) : List Char → Bool
  | [] => pat.isEmpty
  | c :: cs => hasLead pat (c :: cs) || containsL pat cs

/-- JS String.endsWith on character lists. -/
def endsWithL (pat l : List Char) : Bool :=
  hasLead pat.reverse l.reverse

/-- Split on runs of whitespace, dropping empty tokens.  (JS
String.split on the regex backslash-s-plus can additionally produce empty
edge tokens; every use in the sources either filters them out or applies a
predicate that is false on the empty string, so dropping them is
equivalent.) -/
def wsTokensAux : List Char → List Char → List (List Char)
  | cur, [] => if cur.isEmpty then [] else [cur.reverse]
  | cur, c :: cs =>
    if isWsChar c then
      if cur.isEmpty then wsTokensAux [] cs else cur.reverse :: wsTokensAux [] cs
    else wsTokensAux (c :: cur) cs

/-- Whitespace-delimited tokens of a list of characters. -/
def wsTokens (l : List Char) : List (List Char) := wsTokensAux [] l

/-- Does the list contain a run of at least `n` consecutive characters
satisfying `p`?  `k` is the length of the current run. -/
def runGe (p : Char → Bool) (n : Nat) : List Char → Nat → Bool
  | [], k => decide (n ≤ k)
  | c :: cs, k =>
    if p c then runGe p n cs (k + 1)
    else decide (n ≤ k) || runGe p n cs 0

/-- Does `p` hold at some position (on some suffix) of the list? -/
def anyPos (p : List Char → Bool) : List Char → Bool
  | [] => p []
  | c :: cs => p (c :: cs) || anyPos p cs

/-- Consume exactly `n` digits, returning the remainder. -/
def eatExactDigits : Nat → List Char → Option (List Char)
  | 0, l => some l
  | _ + 1, [] => none
  | n + 1, c :: cs => if isDigitCh c then eatExactDigits n cs else none

/-- One separator character of the regex class [backslash-s _ -]. -/
def isSepCh (c : Char) : Bool := isWsChar c || c = '_' || c = '-'

/-- Anchored test for the regexes of shape caret WORD [sep]? digit-plus
(case-insensitive), e.g. IMG_1234, IMG 1234, DSC9. -/
def imgNumLead (word : List Char) (l : List Char) : Bool :=
  hasLead word (lowers l) &&
    (match l.drop word.length with
     | [] => false
     | [c] => isDigitCh c
     | c :: d :: _ => isDigitCh c || (isSepCh c && isDigitCh d))

/-- Anchored test for caret digit{4} sep digit{2} sep digit{2}
(a date such as 2024-01-15). -/
def dateLead (l : List Char) : Bool :=
  match eatExactDigits 4 l with
  | none => false
  | some r1 =>
    match r1 with
    | c :: r2 =>
      isSepCh c &&
        (match eatExactDigits 2 r2 with
         | none => false
         | some r3 =>
           match r3 with
           | d :: r4 =>
             isSepCh d && (eatExactDigits 2 r4).isSome
           | [] => false)
    | [] => false

/-- Tail of the timestamp regex after the leading digits:
dot digit{2} dot digit{2} ws-star (am or pm), case-insensitively. -/
def tsTail : List Char → Bool
  | '.' :: c :: d :: '.' :: e :: f :: rest =>
    isDigitCh c && isDigitCh d && isDigitCh e && isDigitCh f &&
      (let r := lowers (rest.dropWhile isWsChar)
       hasLead ['a', 'm'] r || hasLead ['p', 'm'] r)
  | _ => false

/-- Anchored test for digit{1,2} dot digit{2} dot digit{2} ws-star (am|pm),
e.g. 7.09.57 pm. -/
def tsAt : List Char → Bool
  | a :: b :: rest =>
    (isDigitCh a && isDigitCh b && tsTail rest) ||
      (isDigitCh a && tsTail (b :: rest))
  | _ => false

/-- Anchored test for digit-plus x digit-plus (dimensions such as 150x150;
the source regex has no /i flag, so the x is lower case only). -/
def dimAt : List Char → Bool
  | [] => false
  | c :: cs =>
    isDigitCh c &&
      (match (c :: cs).dropWhile isDigitCh with
       | 'x' :: d :: _ => isDigitCh d
       | _ => false)

/-- Image/file extensions of the garbage-classifier regex
(dot (jpg|jpeg|png|gif|svg|webp|pdf|bmp|tiff?) dollar, /i). -/
def garbageExts : List String :=
  [".jpg", ".jpeg", ".png", ".gif", ".svg", ".webp", ".pdf", ".bmp",
   ".tif", ".tiff"]

/-- Does the (lower-cased) list end with one of the given literal
suffixes? -/
def endsWithAnyCI (sufs : List String) (l : List Char) : Bool :=
  sufs.any (fun s => endsWithL s.data (lowers l))

/-- Anchored test for letter digit alnum{6,} (CMS-hash shapes such as
r3f6csp8h866), case-insensitive. -/
def hashSeqAt : List Char → Bool
  | a :: b :: rest =>
    isAlphaCh a && isDigitCh b && 6 ≤ (rest.takeWhile isAlnumCh).length
  | _ => false

/-- Design/image-file keywords of the scraper module's garbage classifier
(src/unnamed/part_013 lines 53-80). -/
def fileKeywords : List String :=
  ["cmyk", "rgb", "lockup", "tagline", "positive", "negative", "stacked",
   "horizontal", "vertical", "copy of", "scaled", "cropped", "resized",
   "thumbnail", "preview", "final", "draft", "v1", "v2", "v3", "_v", "-v",
   "artwork", "artfile", "press", "print ready"]

/-- Filename patterns of the garbage classifier
(src/unnamed/part_013 lines 37-46). -/
def filenamePat (cs : List Char) : Bool :=
  imgNumLead "img".data cs ||
  imgNumLead "dsc".data cs ||
  imgNumLead "photo".data cs ||
  imgNumLead "image".data cs ||
  dateLead cs ||
  anyPos tsAt cs ||
  anyPos dimAt cs ||
  endsWithAnyCI garbageExts cs

/-- Embedding of isGarbageText, src/unnamed/part_013 lines 25-94: detect
image filenames, CMS hashes and design-file noise.  Returns true when the
text should be rejected. -/
def isGarbageText (text : String) : Bool :=
  let cs := text.data
  if cs.isEmpty then true
  else
    let lowerText := lowers cs
    let hashToks := (wsTokens cs).filter (fun w => runGe isAlnumCh 12 w 0)
    if !hashToks.isEmpty then true
    else if filenamePat cs then true
    else if fileKeywords.any (fun k => containsL k.data lowerText) then true
    else
      let totalLength := (cs.filter (fun c => !isWsChar c)).length
      let hashLength := (hashToks.map List.length).foldl (· + ·) 0
      if decide (0 < totalLength) && decide (3 * totalLength < 10 * hashLength)
      then true
      else anyPos hashSeqAt cs

/-- Value of a hexadecimal digit, as accepted in a percent-escape. -/
def hexVal (c : Char) : Option Nat :=
  if isDigitCh c then some (c.toNat - 48)
  else if 'a' ≤ c && c ≤ 'f' then some (c.toNat - 87)
  else if 'A' ≤ c && c ≤ 'F' then some (c.toNat - 55)
  else none

/-- Model of the JavaScript decodeURIComponent primitive: decodes
percent-escapes, combining consecutive escapes into UTF-8 sequences;
returns none where the primitive throws a URIError (incomplete escape,
bad hex digit, or an invalid/overlong/surrogate UTF-8 sequence). -/
def decU : List Char → Option (List Char)
  | [] => some []
  | '%' :: h :: g :: rest =>
    (match hexVal h, hexVal g with
     | some a, some b =>
       let byte := 16 * a + b
       if byte < 0x80 then (decU rest).map (Char.ofNat byte :: ·)
       else if 0xC2 ≤ byte && byte ≤ 0xDF then
         match rest with
         | '%' :: h2 :: g2 :: r2 =>
           (match hexVal h2, hexVal g2 with
            | some a2, some b2 =>
              let byte2 := 16 * a2 + b2
              if 0x80 ≤ byte2 && byte2 ≤ 0xBF then
                (decU r2).map
                  (Char.ofNat ((byte - 0xC0) * 64 + (byte2 - 0x80)) :: ·)
              else none
            | _, _ => none)
         | _ => none
       else if 0xE0 ≤ byte && byte ≤ 0xEF then
         match rest with
         | '%' :: h2 :: g2 :: '%' :: h3 :: g3 :: r3 =>
           (match hexVal h2, hexVal g2, hexVal h3, hexVal g3 with
            | some a2, some b2, some a3, some b3 =>
              let byte2 := 16 * a2 + b2
              let byte3 := 16 * a3 + b3
              if 0x80 ≤ byte2 && byte2 ≤ 0xBF && 0x80 ≤ byte3 && byte3 ≤ 0xBF
                  && !(byte = 0xE0 && byte2 < 0xA0)
                  && !(byte = 0xED && 0xA0 ≤ byte2) then
                (decU r3).map
                  (Char.ofNat
                    (((byte - 0xE0) * 64 + (byte2 - 0x80)) * 64 +
                      (byte3 - 0x80)) :: ·)
              else none
            | _, _, _, _ => none)
         | _ => none
       else if 0xF0 ≤ byte && byte ≤ 0xF4 then
         match rest with
         | '%' :: h2 :: g2 :: '%' :: h3 :: g3 :: '%' :: h4 :: g4 :: r4 =>
           (match hexVal h2, hexVal g2, hexVal h3, hexVal g3,
                  hexVal h4, hexVal g4 with
            | some a2, some b2, some a3, some b3, some a4, some b4 =>
              let byte2 := 16 * a2 + b2
              let byte3 := 16 * a3 + b3
              let byte4 := 16 * a4 + b4
              if 0x80 ≤ byte2 && byte2 ≤ 0xBF && 0x80 ≤ byte3 && byte3 ≤ 0xBF
                  && 0x80 ≤ byte4 && byte4 ≤ 0xBF
                  && !(byte = 0xF0 && byte2 < 0x90)
                  && !(byte = 0xF4 && 0x90 ≤ byte2) then
                (decU r4).map
                  (Char.ofNat
                    ((((byte - 0xF0) * 64 + (byte2 - 0x80)) * 64 +
                        (byte3 - 0x80)) * 64 + (byte4 - 0x80)) :: ·)
              else none
            | _, _, _, _, _, _ => none)
         | _ => none
       else none
     | _, _ => none)
  | '%' :: _ => none
  | c :: cs => (decU cs).map (c :: ·)

/-- Decode-until-stable loop of cleanAndDecodeText (at most 5 passes);
none when some pass throws. -/
def decodeLoop : Nat → List Char → Option (List Char)
  | 0, cur => some cur
  | n + 1, cur =>
    match decU cur with
    | none => none
    | some next => if next = cur then some cur else decodeLoop n next

/-- Fuel-driven worker for replaceAllL; the fuel (initially the list
length) dominates the number of steps, every step consuming at least one
character, so the fuel never runs out on the initial call. -/
def replaceAllF (p : Char) (ps rep : List Char) : Nat → List Char → List Char
  | 0, l => l
  | _ + 1, [] => []
  | n + 1, c :: cs =>
    if hasLead (p :: ps) (c :: cs) then rep ++ replaceAllF p ps rep n (cs.drop ps.length)
    else c :: replaceAllF p ps rep n cs

/-- Replace every occurrence of the literal pattern `p :: ps` by `rep`
(JS String.replace with a global regex of a literal, scanning left to
right over non-overlapping matches). -/
def replaceAllL (p : Char) (ps rep : List Char) (l : List Char) : List Char :=
  replaceAllF p ps rep l.length l

/-- Manual percent-escape fallback of cleanAndDecodeText (the catch
branch), src/unnamed/part_013 lines 114-127: a fixed chain of global
literal replacements on the original text. -/
def manualDecode (l : List Char) : List Char :=
  [("%20", " "), ("%26", "&"), ("%27", "'"), ("%28", "("), ("%29", ")"),
   ("%2C", ","), ("%2F", "/"), ("%3A", ":"), ("%3B", ";"), ("%40", "@"),
   ("%2B", "+"), ("%25", "%")].foldl
    (fun acc pr =>
      match pr.1.data with
      | [] => acc
      | p :: ps => replaceAllL p ps pr.2.data acc)
    l

/-- Embedding of cleanAndDecodeText, src/unnamed/part_013 lines 100-131:
percent-decode until stable (max 5 passes), with the manual-replacement
fallback when decoding throws, then trim. -/
def cleanAndDecodeText (text : String) : String :=
  if text.data.isEmpty then ""
  else
    let res :=
      match decodeLoop 5 text.data with
      | some final => final
      | none => manualDecode text.data
    String.mk (trimL res)

/-- Remove the (single, end-anchored) match of the trailing-hash regex
ws-plus alnum{12,} dollar (/i), if any. -/
def stripTrailingHash (l : List Char) : List Char :=
  let rev := l.reverse
  let run := rev.takeWhile isAlnumCh
  if 12 ≤ run.length then
    let rest := rev.drop run.length
    let ws := rest.takeWhile isWsChar
    if 1 ≤ ws.length then (rest.drop ws.length).reverse else l
  else l

/-- Generic left-to-right global regex replacement: `m` returns the
length of the (deterministic, greedy) match starting at the given
suffix, or none.  Matches are replaced by `rep`; scanning resumes after
each match.  Every matcher used below matches at least one character. -/
def scanReplaceF (m : List Char → Option Nat) (rep : List Char) : Nat → List Char → List Char
  | 0, l => l
  | _ + 1, [] => []
  | f + 1, c :: cs =>
    match m (c :: cs) with
    | some n => rep ++ scanReplaceF m rep f (cs.drop (n - 1))
    | none => c :: scanReplaceF m rep f cs

/-- Apply the fuel-driven scanner with sufficient fuel. -/
def scanReplace (m : List Char → Option Nat) (rep : List Char) (l : List Char) : List Char :=
  scanReplaceF m rep l.length l

/-- Match length of the mid-string hash regex ws-plus letter digit
alnum{8,} (/gi) at the head of the list. -/
def midHashMatchLen (l : List Char) : Option Nat :=
  let ws := l.takeWhile isWsChar
  if ws.isEmpty then none
  else
    match l.drop ws.length with
    | a :: b :: r2 =>
      if isAlphaCh a && isDigitCh b then
        let run := r2.takeWhile isAlnumCh
        if 8 ≤ run.length then some (ws.length + 2 + run.length) else none
      else none
    | _ => none

/-- Match length of the dimensions regex ws-star digit-plus x digit-plus
ws-star (/gi) at the head of the list. -/
def dimMatchLen (l : List Char) : Option Nat :=
  let ws := l.takeWhile isWsChar
  let r1 := l.drop ws.length
  let ds := r1.takeWhile isDigitCh
  if ds.isEmpty then none
  else
    match r1.drop ds.length with
    | x :: r2 =>
      if x = 'x' || x = 'X' then
        let ds2 := r2.takeWhile isDigitCh
        if ds2.isEmpty then none
        else
          let ws2 := (r2.drop ds2.length).takeWhile isWsChar
          some (ws.length + ds.length + 1 + ds2.length + ws2.length)
      else none
    | [] => none

/-- Match length of the tail of the timestamp regex after its leading
digits: dot digit{2} dot digit{2} ws-star (am|pm)? ws-star. -/
def tsAfter : List Char → Option Nat
  | '.' :: c :: d :: '.' :: e :: f :: rest =>
    if isDigitCh c && isDigitCh d && isDigitCh e && isDigitCh f then
      let ws1 := rest.takeWhile isWsChar
      let r1 := rest.drop ws1.length
      let ap : Nat :=
        if hasLead ['a', 'm'] (lowers r1) || hasLead ['p', 'm'] (lowers r1)
        then 2 else 0
      let ws2 := (r1.drop ap).takeWhile isWsChar
      some (6 + ws1.length + ap + ws2.length)
    else none
  | _ => none

/-- Match length of the timestamp regex ws-star digit{1,2} dot digit{2}
dot digit{2} ws-star (am|pm)? ws-star (/gi) at the head of the list. -/
def tsMatchLen (l : List Char) : Option Nat :=
  let ws := l.takeWhile isWsChar
  match l.drop ws.length with
  | a :: b :: rest =>
    if isDigitCh a && isDigitCh b then
      match tsAfter rest with
      | some k => some (ws.length + 2 + k)
      | none =>
        (tsAfter (b :: rest)).map (fun k => ws.length + 1 + k)
    else if isDigitCh a then
      (tsAfter (b :: rest)).map (fun k => ws.length + 1 + k)
    else none
  | _ => none

/-- Component of a transliterated regular expression, used for the
word-removal and suffix patterns of the cleaners. -/
inductive RePart where
  | lit : String → RePart
  | ws1 : RePart
  | ws0 : RePart
  | digits1 : RePart
  | digit1 : RePart
  | wb : RePart
  | altLit : List String → RePart
  | optLit : String → RePart
  | digN : Nat → RePart
  | alnumAtLeast : Nat → RePart
deriving Repr

/-- Deterministic greedy matcher for a RePart sequence: returns the
number of consumed characters.  Exact for the source regexes it
transliterates (their quantified classes are disjoint from what
follows, so backtracking can never succeed where the greedy pass
fails). -/
def rePartsLen : List RePart → List Char → Option Nat
  | [], _ => some 0
  | .lit w :: ps, l =>
    if hasLead w.data (lowers l) then
      (rePartsLen ps (l.drop w.data.length)).map (· + w.data.length)
    else none
  | .ws1 :: ps, l =>
    let k := (l.takeWhile isWsChar).length
    if k = 0 then none else (rePartsLen ps (l.drop k)).map (· + k)
  | .ws0 :: ps, l =>
    let k := (l.takeWhile isWsChar).length
    (rePartsLen ps (l.drop k)).map (· + k)
  | .digits1 :: ps, l =>
    let k := (l.takeWhile isDigitCh).length
    if k = 0 then none else (rePartsLen ps (l.drop k)).map (· + k)
  | .digit1 :: ps, l =>
    (match l with
     | c :: cs => if isDigitCh c then (rePartsLen ps cs).map (· + 1) else none
     | [] => none)
  | .wb :: ps, l =>
    (match l with
     | [] => rePartsLen ps []
     | c :: _ => if isWordCh c then none else rePartsLen ps l)
  | .altLit ws :: ps, l =>
    (match ws.findSome? (fun w =>
        if hasLead w.data (lowers l) then some w.data.length else none) with
     | some n => (rePartsLen ps (l.drop n)).map (· + n)
     | none => none)
  | .optLit w :: ps, l =>
    if hasLead w.data (lowers l) then
      (rePartsLen ps (l.drop w.data.length)).map (· + w.data.length)
    else rePartsLen ps l
  | .digN n :: ps, l =>
    if (l.take n).length = n && (l.take n).all isDigitCh then
      (rePartsLen ps (l.drop n)).map (· + n)
    else none
  | .alnumAtLeast n :: ps, l =>
    let k := (l.takeWhile isAlnumCh).length
    if n ≤ k then (rePartsLen ps (l.drop k)).map (· + k) else none

/-- Design-term removal regexes of the scraper cleanSponsorName
(src/unnamed/part_013 lines 962-983), each of shape ws-plus TERM
word-boundary, applied as global replacements in source order. -/
def garbageTerms13 : List (List RePart) :=
  [[.ws1, .lit "cmyk", .wb],
   [.ws1, .lit "rgb", .wb],
   [.ws1, .lit "lockup", .wb],
   [.ws1, .lit "with", .ws1, .lit "tagline", .wb],
   [.ws1, .lit "tagline", .wb],
   [.ws1, .lit "positive", .wb],
   [.ws1, .lit "negative", .wb],
   [.ws1, .lit "stacked", .wb],
   [.ws1, .lit "horizontal", .wb],
   [.ws1, .lit "vertical", .wb],
   [.ws1, .lit "artwork", .wb],
   [.ws1, .lit "artfile", .wb],
   [.ws1, .lit "print", .ws0, .lit "ready", .wb],
   [.ws1, .lit "thumbnail", .wb],
   [.ws1, .lit "preview", .wb],
   [.ws1, .lit "draft", .wb],
   [.ws1, .lit "v", .digits1, .wb],
   [.ws1, .lit "_v", .digit1, .wb],
   [.ws1, .lit "-v", .digit1, .wb],
   [.ws1, .lit "final", .wb]]

/-- Consume a case-insensitive literal. -/
def eatLit (w : String) (l : List Char) : Option (List Char) :=
  if hasLead w.data (lowers l) then some (l.drop w.data.length) else none

/-- Consume at least one whitespace character (regex ws-plus). -/
def eatWs1 (l : List Char) : Option (List Char) :=
  let k := (l.takeWhile isWsChar).length
  if k = 0 then none else some (l.drop k)

/-- Consume optional whitespace (regex ws-star). -/
def eatWs0 (l : List Char) : List Char := l.dropWhile isWsChar

/-- Consume the first matching alternative of a literal alternation. -/
def eatAlt (ws : List String) (l : List Char) : Option (List Char) :=
  match ws with
  | [] => none
  | w :: rest =>
    match eatLit w l with
    | some r => some r
    | none => eatAlt rest l

/-- Optional group: keep the remainder on failure. -/
def eatOpt (f : List Char → Option (List Char)) (l : List Char) : List Char :=
  (f l).getD l

/-- Tier words of the scraper's second and third prefix regexes. -/
def tierWords13 : List String :=
  ["major", "principal", "gold", "silver", "bronze", "platinum",
   "community", "official"]

/-- Regex caret logo ws+ of ws+ (partner|sponsor|our ws+ partner|our ws+
sponsor) ws+ (/i), as an anchored strip. -/
def stripPre1 (l : List Char) : List Char :=
  (do
    let r1 ← eatLit "logo" l
    let r2 ← eatWs1 r1
    let r3 ← eatLit "of" r2
    let r4 ← eatWs1 r3
    let r5 ← eatLit "partner" r4 <|> eatLit "sponsor" r4 <|>
      (do
        let a ← eatLit "our" r4
        let b ← eatWs1 a
        eatLit "partner" b) <|>
      (do
        let a ← eatLit "our" r4
        let b ← eatWs1 a
        eatLit "sponsor" b)
    eatWs1 r5).getD l

/-- Regex caret (tier) ws+ (partner|sponsor) ws+ logo ws* (of)? ws* (/i). -/
def stripPre2 (l : List Char) : List Char :=
  (do
    let r1 ← eatAlt tierWords13 l
    let r2 ← eatWs1 r1
    let r3 ← eatAlt ["partner", "sponsor"] r2
    let r4 ← eatWs1 r3
    let r5 ← eatLit "logo" r4
    let r6 := eatWs0 r5
    let r7 := eatOpt (eatLit "of") r6
    pure (eatWs0 r7)).getD l

/-- Regex caret (tier) ws+ (partner|sponsor) ws+ (/i). -/
def stripPre3 (l : List Char) : List Char :=
  (do
    let r1 ← eatAlt tierWords13 l
    let r2 ← eatWs1 r1
    let r3 ← eatAlt ["partner", "sponsor"] r2
    eatWs1 r3).getD l

/-- Regex caret logo ws* (of|for)? ws* (partner|sponsor)? ws* (/i). -/
def stripPre4 (l : List Char) : List Char :=
  (do
    let r1 ← eatLit "logo" l
    let r2 := eatWs0 r1
    let r3 := eatOpt (fun x => eatAlt ["of", "for"] x) r2
    let r4 := eatWs0 r3
    let r5 := eatOpt (fun x => eatAlt ["partner", "sponsor"] x) r4
    pure (eatWs0 r5)).getD l

/-- Regex caret partner ws* logo ws* (of|for)? ws* (/i). -/
def stripPre5 (l : List Char) : List Char :=
  (do
    let r1 ← eatLit "partner" l
    let r2 := eatWs0 r1
    let r3 ← eatLit "logo" r2
    let r4 := eatWs0 r3
    let r5 := eatOpt (fun x => eatAlt ["of", "for"] x) r4
    pure (eatWs0 r5)).getD l

/-- Regex caret sponsor ws* logo ws* (of|for)? ws* (/i). -/
def stripPre6 (l : List Char) : List Char :=
  (do
    let r1 ← eatLit "sponsor" l
    let r2 := eatWs0 r1
    let r3 ← eatLit "logo" r2
    let r4 := eatWs0 r3
    let r5 := eatOpt (fun x => eatAlt ["of", "for"] x) r4
    pure (eatWs0 r5)).getD l

/-- Regex caret image ws* (of|for)? ws* (/i). -/
def stripPre7 (l : List Char) : List Char :=
  (do
    let r1 ← eatLit "image" l
    let r2 := eatWs0 r1
    let r3 := eatOpt (fun x => eatAlt ["of", "for"] x) r2
    pure (eatWs0 r3)).getD l

/-- Regex caret icon ws* (of|for)? ws* (/i). -/
def stripPre8 (l : List Char) : List Char :=
  (do
    let r1 ← eatLit "icon" l
    let r2 := eatWs0 r1
    let r3 := eatOpt (fun x => eatAlt ["of", "for"] x) r2
    pure (eatWs0 r3)).getD l

/-- Regex caret digit-plus ws* (hyphen or en-dash) ws* (leading numeric
bullets such as "1 - "). -/
def stripPre9 (l : List Char) : List Char :=
  let ds := l.takeWhile isDigitCh
  if ds.isEmpty then l
  else
    match eatWs0 (l.drop ds.length) with
    | c :: cs => if c = '-' || c = '–' then eatWs0 cs else l
    | [] => l

/-- All nine anchored strips in source order. -/
def leadStrips13 : List (List Char → List Char) :=
  [stripPre1, stripPre2, stripPre3, stripPre4, stripPre5, stripPre6,
   stripPre7, stripPre8, stripPre9]

/-- Leftmost end-anchored match position of a RePart sequence (the
replacement of an end-anchored regex removes everything from this
position on). -/
def minEndMatchAux (parts : List RePart) : List Char → Nat → Option Nat
  | [], i => if rePartsLen parts [] = some 0 then some i else none
  | c :: cs, i =>
    if rePartsLen parts (c :: cs) = some (c :: cs).length then some i
    else minEndMatchAux parts cs (i + 1)

/-- Strip the leftmost end-anchored match of a RePart sequence, if any
(JS single replace of a dollar-anchored regex by the empty string). -/
def stripSufPat (parts : List RePart) (l : List Char) : List Char :=
  match minEndMatchAux parts l 0 with
  | some i => l.take i
  | none => l

/-- End-anchored suffix regexes of the scraper cleanSponsorName
(src/unnamed/part_013 lines 1007-1015), in source order. -/
def sufPats13 : List (List RePart) :=
  [[.ws0, .lit "logo"],
   [.ws0, .lit "icon"],
   [.ws0, .lit "image"],
   [.ws0, .lit "-", .ws0, .lit "open", .optLit "s", .ws0, .lit "in", .ws0,
    .lit "new", .ws0, .altLit ["tab", "window"]],
   [.ws0, .lit "(", .lit "open", .optLit "s", .ws0, .lit "in", .ws0,
    .lit "new", .ws0, .altLit ["tab", "window"], .lit ")"],
   [.ws0, .lit "sponsor"],
   [.ws0, .lit "partner"]]

/-- Collapse runs of whitespace to single spaces (JS replace of global
ws-plus by one space). -/
def collapseWsF : Nat → List Char → List Char
  | 0, l => l
  | _ + 1, [] => []
  | n + 1, c :: cs =>
    if isWsChar c then
      ' ' :: collapseWsF n (cs.drop ((cs.takeWhile isWsChar).length))
    else c :: collapseWsF n cs

/-- Apply the whitespace collapser with sufficient fuel. -/
def collapseWs (l : List Char) : List Char := collapseWsF l.length l

/-- Embedding of the scraper module's cleanSponsorName,
src/unnamed/part_013 lines 944-1029: decode, strip hashes, dimensions,
timestamps and design terms, strip known prefixes and suffixes, collapse
whitespace, and blank out results that are too short or still garbage. -/
def cleanSponsorName (rawText : String) : String :=
  if rawText.data.isEmpty then ""
  else
    let c0 := (cleanAndDecodeText rawText).data
    let c1 := stripTrailingHash c0
    let c2 := scanReplace midHashMatchLen [] c1
    let c3 := scanReplace dimMatchLen [' '] c2
    let c4 := scanReplace tsMatchLen [' '] c3
    let c5 := garbageTerms13.foldl
      (fun acc t => scanReplace (rePartsLen t) [] acc) c4
    let c6 := leadStrips13.foldl (fun acc f => f acc) c5
    let c7 := sufPats13.foldl (fun acc p => stripSufPat p acc) c6
    let c8 := trimL (collapseWs c7)
    if c8.length < 2 then ""
    else if isGarbageText (String.mk c8) then ""
    else String.mk c8

/-- Full anchored match (caret ... dollar) of a RePart sequence. -/
def reFull (parts : List RePart) (l : List Char) : Bool :=
  rePartsLen parts l = some l.length

/-- Anchored-at-start match (caret ...) of a RePart sequence. -/
def rePre (parts : List RePart) (l : List Char) : Bool :=
  (rePartsLen parts l).isSome

/-- Unanchored search for a RePart sequence. -/
def reHas (parts : List RePart) (l : List Char) : Bool :=
  anyPos (fun s => (rePartsLen parts s).isSome) l

/-- Unanchored search where the match start must sit on a left word
boundary; the flag carries whether the previous character is a word
character. -/
def reHasLBAux (parts : List RePart) : List Char → Bool → Bool
  | [], _ => false
  | c :: cs, pw =>
    (!pw && (rePartsLen parts (c :: cs)).isSome) ||
      reHasLBAux parts cs (isWordCh c)

/-- Unanchored search for backslash-b ... patterns. -/
def reHasLB (parts : List RePart) (l : List Char) : Bool :=
  reHasLBAux parts l false

/-- Exact case-insensitive equality with one word (regex caret w dollar,
/i), applied to the already lower-cased text. -/
def eqW (w : String) (lt : List Char) : Bool := lt = w.data

/-- Case-insensitive prefix (regex caret w, /i) on lower-cased text. -/
def leadW (w : String) (lt : List Char) : Bool := hasLead w.data lt

/-- Regex caret w backslash-s (word then one whitespace character). -/
def leadWs (w : String) (lt : List Char) : Bool :=
  hasLead w.data lt &&
    (match lt.drop w.data.length with
     | c :: _ => isWsChar c
     | [] => false)

/-- Regex caret w backslash-d (word then one digit). -/
def leadDig (w : String) (lt : List Char) : Bool :=
  hasLead w.data lt &&
    (match lt.drop w.data.length with
     | c :: _ => isDigitCh c
     | [] => false)

/-- Regex caret w digit-star dollar (word then only digits). -/
def digitTailW (w : String) (lt : List Char) : Bool :=
  hasLead w.data lt && (lt.drop w.data.length).all isDigitCh

/-- Tier-label blocklist regex caret w ws-star (sponsor|partner)? dollar. -/
def tierLab (w : String) (lt : List Char) : Bool :=
  reFull [.lit w] lt || reFull [.lit w, .ws0, .lit "sponsor"] lt ||
    reFull [.lit w, .ws0, .lit "partner"] lt

/-- Helper for the blocklist regex of shape word-boundary press dot-star
ready word-boundary: search for a word-bounded "ready" without crossing a
line terminator (the dot of the source regex does not match newlines). -/
def afterPressReady : List Char → Bool → Bool
  | [], _ => false
  | c :: cs, pw =>
    (!pw && (rePartsLen [.lit "ready", .wb] (c :: cs)).isSome) ||
      (!(c = '\n' || c = '\r') && afterPressReady cs (isWordCh c))

/-- Search for word-bounded "press" followed (same line) by word-bounded
"ready" — blocklist regex backslash-b press backslash-b dot-star
backslash-b ready backslash-b (/i). -/
def pressReadyAux : List Char → Bool → Bool
  | [], _ => false
  | c :: cs, pw =>
    (!pw && (rePartsLen [.lit "press", .wb] (c :: cs)).isSome &&
        afterPressReady ((c :: cs).drop 5) true) ||
      pressReadyAux cs (isWordCh c)

/-- First names of the staff-photo blocklist entry
(src/unnamed/part_013 line 323). -/
def personalNames : List String :=
  ["john", "jane", "mike", "michael", "david", "sarah", "emma", "sophie",
   "james", "robert", "mary", "lisa", "anna", "tom", "chris", "dan",
   "matt", "ben", "sam", "alex", "kate", "amy", "luke", "mark", "paul",
   "peter", "steve", "brian", "kevin", "andrew", "ryan", "josh", "nick",
   "adam", "jack", "max", "joe", "tim", "ian", "alan", "gary", "simon",
   "tony", "carl", "lee", "martin", "neil", "sean", "craig", "scott",
   "dean", "ross", "grant", "wayne", "troy", "brad", "chad", "greg",
   "darren", "barry", "keith", "glen", "stuart", "derek", "trevor",
   "phillip", "graham", "russell", "roger", "colin"]

/-- Regex caret digit-plus x digit-plus dollar, case-sensitive (the
dimensions blocklist entry has no /i flag). -/
def dimFullCS (t : List Char) : Bool :=
  let ds := t.takeWhile isDigitCh
  !ds.isEmpty &&
    (match t.drop ds.length with
     | 'x' :: rest =>
       !rest.isEmpty && rest.all isDigitCh
     | _ => false)

/-- Adjacent lower-case/upper-case pair (regex [a-z][A-Z], unanchored,
case-sensitive). -/
def hasCamelPair : List Char → Bool
  | a :: b :: rest => (isLowerCh a && isUpperCh b) || hasCamelPair (b :: rest)
  | _ => false

/-- Embedding of the NON_SPONSOR_PATTERNS blocklist,
src/unnamed/part_013 lines 247-458: true when the trimmed candidate
matches any blocklist regex.  `t` is the trimmed original-case text;
case-insensitive patterns are tested on its lower-casing. -/
def matchesNonSponsor (t : List Char) : Bool :=
  let lt := lowers t
  -- Generic/placeholder terms
  (eqW "placeholder" lt || eqW "default" lt || eqW "blank" lt ||
   digitTailW "img" lt || digitTailW "image" lt || digitTailW "photo" lt ||
   digitTailW "pic" lt || leadW "untitled" lt || leadW "screenshot" lt ||
   leadW "screen shot" lt || leadDig "dsc" lt || leadDig "img_" lt ||
   leadDig "photo_" lt || containsL "whatsapp".data lt || leadDig "wa" lt ||
   -- Slogans and motivational phrases
   reHas [.lit "whatever", .ws0, .lit "it", .ws0, .lit "takes"] lt ||
   ["be", "go", "get", "let", "just", "we", "our", "the", "your",
    "my"].any (fun w => leadWs w lt) ||
   leadWs "never" lt || leadWs "always" lt || containsL "together".data lt ||
   leadW "believe" lt || leadW "dream" lt || leadWs "play" lt ||
   leadWs "win" lt || leadWs "team" lt) ||
  -- UI/Navigation elements
  (eqW "contact" lt || reFull [.lit "contact", .ws0, .lit "us"] lt ||
   eqW "about" lt || reFull [.lit "about", .ws0, .lit "us"] lt ||
   eqW "home" lt || eqW "menu" lt || eqW "nav" lt || eqW "header" lt ||
   eqW "footer" lt || eqW "banner" lt || eqW "button" lt || eqW "icon" lt ||
   eqW "arrow" lt || eqW "close" lt || eqW "open" lt || eqW "search" lt ||
   eqW "login" lt || reFull [.lit "log", .ws0, .lit "in"] lt ||
   eqW "signup" lt || reFull [.lit "sign", .ws0, .lit "up"] lt ||
   reFull [.lit "sign", .ws0, .lit "in"] lt || eqW "register" lt ||
   eqW "subscribe" lt || reFull [.lit "click", .ws0, .lit "here"] lt ||
   reFull [.lit "read", .ws0, .lit "more"] lt ||
   reFull [.lit "learn", .ws0, .lit "more"] lt ||
   reFull [.lit "view", .ws0, .lit "more"] lt ||
   reFull [.lit "view", .ws0, .lit "all"] lt ||
   reFull [.lit "see", .ws0, .lit "more"] lt ||
   reFull [.lit "see", .ws0, .lit "all"] lt ||
   reFull [.lit "more", .ws0, .lit "info"] lt ||
   eqW "next" lt || eqW "previous" lt || eqW "prev" lt || eqW "back" lt ||
   eqW "forward" lt || eqW "submit" lt || eqW "send" lt ||
   eqW "download" lt || eqW "upload" lt || eqW "share" lt ||
   eqW "print" lt || reFull [.lit "email", .ws0, .lit "us"] lt) ||
  -- Common personal names (staff photos)
  personalNames.any (fun w => eqW w lt) ||
  -- Generic descriptive terms
  (eqW "logo" lt || eqW "logo" lt || eqW "logos" lt || eqW "sponsor" lt ||
   eqW "sponsors" lt || eqW "partner" lt || eqW "partners" lt ||
   eqW "supporter" lt || eqW "supporters" lt ||
   reFull [.lit "our", .ws0, .lit "sponsors"] lt ||
   reFull [.lit "our", .ws0, .lit "partners"] lt ||
   reFull [.lit "our", .ws0, .lit "supporters"] lt ||
   eqW "member" lt || eqW "team" lt || eqW "staff" lt || eqW "player" lt ||
   eqW "coach" lt || eqW "club" lt || eqW "news" lt || eqW "event" lt ||
   eqW "gallery" lt || digitTailW "slide" lt || leadW "carousel" lt ||
   leadW "background" lt || eqW "hero" lt || leadW "feature" lt ||
   eqW "advertisement" lt || eqW "ad" lt || eqW "promo" lt ||
   eqW "promotion" lt) ||
  -- Tier labels
  (tierLab "major" lt || tierLab "principal" lt || tierLab "gold" lt ||
   tierLab "silver" lt || tierLab "bronze" lt || tierLab "platinum" lt ||
   tierLab "community" lt || tierLab "official" lt ||
   reFull [.lit "naming", .ws0, .lit "rights"] lt ||
   reFull [.lit "title", .ws0, .lit "sponsor"] lt) ||
  -- File/technical terms
  (leadW "cropped" lt || leadW "scaled" lt || leadW "resized" lt ||
   eqW "copy" lt || eqW "final" lt || eqW "edit" lt || leadW "version" lt ||
   (!t.isEmpty && t.all isDigitCh) ||
   (t.length = 1 && t.all isAlphaCh) ||
   (8 ≤ t.length && t.all isHexCh) ||
   reHas [.digN 4, .ws0, .digN 2, .ws0, .digN 2] lt ||
   reHas [.lit "at", .digN 2, .lit ".", .digN 2] lt ||
   dimFullCS t ||
   endsWithAnyCI [".jpg", ".jpeg", ".png", ".gif", ".svg", ".webp",
     ".pdf"] t) ||
  -- Image/design file patterns
  (containsL "cmyk".data lt || reHas [.lit "rgb", .wb] lt ||
   containsL "lockup".data lt || containsL "tagline".data lt ||
   reHasLB [.lit "with", .ws1, .lit "tagline", .wb] lt ||
   reHas [.lit "positive", .ws1, .altLit ["cmyk", "rgb"]] lt ||
   reHas [.lit "negative", .ws1, .altLit ["cmyk", "rgb"]] lt ||
   reHasLB [.lit "stacked", .wb] lt ||
   reHasLB [.lit "horizontal", .wb] lt ||
   reHasLB [.lit "vertical", .wb] lt ||
   containsL "artwork".data lt || containsL "artfile".data lt ||
   reHas [.lit "print", .ws0, .lit "ready"] lt ||
   pressReadyAux lt false ||
   containsL "thumbnail".data lt || containsL "preview".data lt ||
   reHasLB [.lit "draft", .wb] lt ||
   reHasLB [.lit "v", .digits1, .wb] lt ||
   reHas [.lit "_v", .digit1] lt || reHas [.lit "-v", .digit1] lt ||
   reHasLB [.lit "r", .digit1, .alnumAtLeast 5] lt ||
   reHasLB [.lit "q", .alnumAtLeast 10] lt) ||
  -- Website/social media elements
  (eqW "facebook" lt || eqW "instagram" lt || eqW "twitter" lt ||
   eqW "linkedin" lt || eqW "youtube" lt || eqW "tiktok" lt ||
   eqW "snapchat" lt || eqW "pinterest" lt || eqW "x.com" lt ||
   rePre [.lit "follow", .ws0, .lit "us"] lt || eqW "like" lt ||
   eqW "comment" lt) ||
  -- Common website footer elements
  (leadW "copyright" lt ||
   rePre [.lit "all", .ws0, .lit "rights", .ws0, .lit "reserved"] lt ||
   rePre [.lit "privacy", .ws0, .lit "policy"] lt ||
   (reFull [.lit "terms"] lt ||
     reFull [.lit "terms", .ws0, .lit "of", .ws0, .lit "service"] lt ||
     reFull [.lit "terms", .ws0, .lit "and", .ws0, .lit "conditions"] lt) ||
   rePre [.lit "cookie", .ws0, .lit "policy"] lt ||
   rePre [.lit "powered", .ws0, .lit "by"] lt ||
   rePre [.lit "built", .ws0, .lit "by"] lt ||
   rePre [.lit "designed", .ws0, .lit "by"] lt ||
   rePre [.lit "developed", .ws0, .lit "by"] lt) ||
  -- Sports/club related non-sponsor terms
  (leadW "fixture" lt || eqW "fixtures" lt || leadW "result" lt ||
   eqW "results" lt || eqW "ladder" lt || eqW "schedule" lt ||
   leadW "training" lt || leadW "registration" lt ||
   leadW "membership" lt || eqW "junior" lt || eqW "juniors" lt ||
   eqW "senior" lt || eqW "seniors" lt || eqW "women" lt ||
   eqW "womens" lt || eqW "men" lt || eqW "mens" lt ||
   rePre [.lit "under", .ws0, .digit1] lt ||
   (reFull [.lit "u", .digN 1] lt || reFull [.lit "u", .digN 1, .lit "s"] lt ||
     reFull [.lit "u", .digN 2] lt ||
     reFull [.lit "u", .digN 2, .lit "s"] lt)) ||
  -- Misc noise
  (eqW "undefined" lt || eqW "null" lt || eqW "n/a" lt || eqW "tba" lt ||
   eqW "tbc" lt || reFull [.lit "coming", .ws0, .lit "soon"] lt ||
   reFull [.lit "no", .ws0, .lit "name"] lt)

/-- Does the lower-cased text end (dollar-anchored) with the word `w`
starting at a word boundary? -/
def endsWordB (w : String) (lt : List Char) : Bool :=
  let rev := lt.reverse
  hasLead w.data.reverse rev &&
    (match rev.drop w.data.length with
     | [] => true
     | c :: _ => !isWordCh c)

/-- Variant of endsWordB allowing one trailing literal dot
(regex backslash-b w dot? dollar). -/
def endsWordBDot (w : String) (lt : List Char) : Bool :=
  endsWordB w lt ||
    (match lt.reverse with
     | '.' :: rest => endsWordB w rest.reverse
     | _ => false)

/-- End-anchored match of word-boundary real ws-star estate dollar. -/
def endsRealEstate (lt : List Char) : Bool :=
  let rev := lt.reverse
  hasLead "etatse".data rev &&
    (let r2 := (rev.drop 6).dropWhile isWsChar
     hasLead "laer".data r2 &&
       (match r2.drop 4 with
        | [] => true
        | c :: _ => !isWordCh c))

/-- Embedding of BUSINESS_SUFFIXES, src/unnamed/part_013 lines 461-472:
does the text end in a recognized business suffix? -/
def hasBusinessSuffix (s : List Char) : Bool :=
  let lt := lowers s
  ["pty", "ltd", "inc", "corp", "co", "group", "services", "solutions",
   "industries", "australia", "au"].any (fun w => endsWordBDot w lt) ||
  (["construction", "builder", "builders", "building", "home", "homes",
    "properties", "property"].any (fun w => endsWordB w lt) ||
    endsRealEstate lt) ||
  ["electrical", "plumbing", "mechanical", "engineering",
   "consulting"].any (fun w => endsWordB w lt) ||
  ["logistics", "transport", "auto", "motor", "motors", "automotive",
   "car", "cars"].any (fun w => endsWordB w lt) ||
  ["finance", "financial", "accounting", "legal", "lawyer", "lawyers",
   "law"].any (fun w => endsWordB w lt) ||
  ["cafe", "restaurant", "bar", "hotel", "catering", "food"].any
    (fun w => endsWordB w lt) ||
  ["gym", "fitness", "health", "medical", "dental", "pharmacy",
   "chemist"].any (fun w => endsWordB w lt) ||
  ["print", "printing", "graphics", "design", "media", "studio"].any
    (fun w => endsWordB w lt) ||
  ["steel", "metal", "concrete", "glass", "timber", "supplies"].any
    (fun w => endsWordB w lt) ||
  ["wholesale", "retail", "store", "shop", "mart", "warehouse"].any
    (fun w => endsWordB w lt)

/-- Single-word stoplist of isValidSponsorName. -/
def singleWordBlacklist : List String :=
  ["the", "and", "or", "but", "for", "with", "from", "this", "that",
   "are", "was", "were", "been", "being", "have", "has", "had",
   "new", "view", "more", "all", "click", "here", "now", "get"]

/-- Checks of isValidSponsorName after its leading length bound
(src/unnamed/part_013 lines 482-554): garbage classifier, blocklist, and
the structural checks on letters, extensions, camel case, URLs, paths,
digit share and single words. -/
def isValidSponsorNameBody (name : String) : Bool :=
    let t := trimL name.data
    let lt := lowers t
    if isGarbageText (String.mk t) then false
    else if matchesNonSponsor t then false
    else if !(t.any isAlphaCh) then false
    else if endsWithAnyCI [".jpg", ".jpeg", ".png", ".gif", ".webp",
      ".svg", ".pdf", ".doc", ".html", ".php", ".aspx"] t then false
    else if hasCamelPair t && !(t.contains ' ') then false
    else if hasLead "http://".data lt || hasLead "https://".data lt ||
        hasLead "www.".data lt then false
    else if t.contains '/' && !(t.contains ' ') then false
    else
      let letterCount := (t.filter isAlphaCh).length
      if 10 * letterCount < 3 * t.length then false
      else if singleWordBlacklist.any (fun w => lt = w.data) then false
      else if (wsTokens t).length = 1 then
        if t.length < 4 then false
        else if t = lt && t.length < 8 then hasBusinessSuffix t
        else true
      else true

/-- Embedding of isValidSponsorName, src/unnamed/part_013 lines 477-555:
the leading 2-100 character bound, then the garbage/blocklist/structural
checks of isValidSponsorNameBody. -/
def isValidSponsorName (name : String) : Bool :=
  if name.data.length < 2 || 100 < name.data.length then false
  else isValidSponsorNameBody name

/-- Embedding of the ScrapedSponsor interface (src/unnamed/part_013
lines 4-10); optional fields model the TypeScript optional properties. -/
structure ScrapedSponsor where
  name : String
  logoUrl : Option String := none
  websiteUrl : Option String := none
  tier : Option String := none
  sourceUrl : String := ""
deriving DecidableEq, Repr

/-- JS String.toLowerCase (ASCII). -/
def toLowerStr (s : String) : String := String.mk (lowers s.data)

/-- JavaScript truthiness of an optional string field: undefined and the
empty string are falsy. -/
def strTruthy : Option String → Bool
  | none => false
  | some s => !s.data.isEmpty

/-- Merge step of deduplicateSponsors (src/unnamed/part_013 lines
1184-1196): keep the existing entity, backfilling each falsy field from
the duplicate when the duplicate's field is truthy. -/
def mergeSponsor (e s : ScrapedSponsor) : ScrapedSponsor :=
  { e with
    logoUrl := if !strTruthy e.logoUrl && strTruthy s.logoUrl then s.logoUrl else e.logoUrl
    websiteUrl := if !strTruthy e.websiteUrl && strTruthy s.websiteUrl then s.websiteUrl else e.websiteUrl
    tier := if !strTruthy e.tier && strTruthy s.tier then s.tier else e.tier }

/-- Insert one sponsor into the insertion-ordered association list that
models the JS Map of deduplicateSponsors; the key is the lower-cased
(untrimmed) name. -/
def dedupInsert (acc : List (String × ScrapedSponsor)) (s : ScrapedSponsor) :
    List (String × ScrapedSponsor) :=
  let key := toLowerStr s.name
  if acc.any (fun kv => kv.1 == key) then
    acc.map (fun kv => if kv.1 == key then (kv.1, mergeSponsor kv.2 s) else kv)
  else acc ++ [(key, s)]

/-- Embedding of deduplicateSponsors, src/unnamed/part_013 lines
1176-1200: first-seen entity kept per lower-cased name key, missing
fields backfilled from later duplicates, insertion order preserved. -/
def deduplicateSponsors (sponsors : List ScrapedSponsor) : List ScrapedSponsor :=
  (sponsors.foldl dedupInsert []).map Prod.snd

/-- One step of the final validation filter of scrapeClubSponsors
(src/unnamed/part_013 lines 1238-1254): drop names outside 2-100 chars,
re-clean, drop invalid cleaned names, and store the cleaned name. -/
def finalizeSponsor (s : ScrapedSponsor) : Option ScrapedSponsor :=
  if s.name.data.length < 2 || 100 < s.name.data.length then none
  else
    let c := cleanSponsorName s.name
    if isValidSponsorName c then some { s with name := c } else none

/-- Sponsor list of the ScrapeResult produced by scrapeClubSponsors from
the raw per-page candidates (the page fetching and extraction that
gathers `allSponsors` is network I/O, abstracted as the input list):
deduplication followed by the final validation filter. -/
def scrapeResultSponsors (allSponsors : List ScrapedSponsor) : List ScrapedSponsor :=
  (deduplicateSponsors allSponsors).filterMap finalizeSponsor

/-- Split a character list at every occurrence of the separator,
keeping empty pieces (JS String.split with a single-character string
separator). -/
def splitOnCh (sep : Char) : List Char → List (List Char)
  | [] => [[]]
  | c :: cs =>
    match splitOnCh sep cs with
    | [] => [[c]]
    | h :: t => if c = sep then [] :: h :: t else (c :: h) :: t

/-- Join pieces with a separator (JS Array.join). -/
def joinWith (sep : List Char) : List (List Char) → List Char
  | [] => []
  | [x] => x
  | x :: y :: t => x ++ sep ++ joinWith sep (y :: t)

/-- Simplified model of a WHATWG URL as produced by the JS URL
constructor: web URLs carry a scheme, a lower-cased hostname, a path
(normalized to start with "/") and the verbatim query/fragment tail;
non-http(s) schemes (mailto:, javascript:, data:) are kept as opaque
scheme/rest pairs.  Dot-segment normalization and percent-encoding of
URL components are not modelled; no input in this development exercises
them. -/
inductive UrlM where
  | web (scheme host path tail : String)
  | opaqueU (scheme rest : String)
deriving DecidableEq, Repr

/-- Split an authority-relative string into host and remainder (the
host ends at the first '/', '?' or '#'). -/
def splitHostRest (l : List Char) : List Char × List Char :=
  let host := l.takeWhile (fun c => !(c = '/' || c = '?' || c = '#'))
  (host, l.drop host.length)

/-- Split into path and query/fragment tail. -/
def splitPathTail (l : List Char) : List Char × List Char :=
  let path := l.takeWhile (fun c => !(c = '?' || c = '#'))
  (path, l.drop path.length)

/-- Leading scheme of a URL string (letter followed by letters, digits,
'+', '-' or '.', then a colon), lower-cased, with the remainder. -/
def schemeSplit (l : List Char) : Option (List Char × List Char) :=
  match l with
  | c :: _ =>
    if isAlphaCh c then
      let run := l.takeWhile (fun d => isAlnumCh d || d = '+' || d = '-' || d = '.')
      match l.drop run.length with
      | ':' :: rest => some (lowers run, rest)
      | _ => none
    else none
  | [] => none

/-- Hostname portion of an authority: strip a port, reject whitespace
(the URL constructor throws on an invalid host). -/
def validHost (host : List Char) : Option (List Char) :=
  let h := host.takeWhile (fun c => c ≠ ':')
  if h.isEmpty || h.any isWsChar || h.any (fun c => c = '@') then none
  else some (lowers h)

/-- Parse an absolute URL (the JS URL constructor without a base);
none models a thrown TypeError. -/
def parseAbsUrl (s : String) : Option UrlM :=
  match schemeSplit s.data with
  | some (sch, rest) =>
    if sch = "http".data || sch = "https".data then
      match rest with
      | '/' :: '/' :: r2 =>
        let hr := splitHostRest r2
        (match validHost hr.1 with
         | none => none
         | some h =>
           let pt := splitPathTail hr.2
           some (.web (String.mk sch) (String.mk h)
             (if pt.1.isEmpty then "/" else String.mk pt.1) (String.mk pt.2)))
      | _ => none
    else some (.opaqueU (String.mk sch) (String.mk rest))
  | none => none

/-- Resolve a (possibly relative) href against a base URL string — the
JS URL constructor with a base; none models a thrown TypeError. -/
def resolveUrl? (href base : String) : Option UrlM :=
  match parseAbsUrl href with
  | some u => some u
  | none =>
    match parseAbsUrl base with
    | some (.web bs bh bp bt) =>
      match href.data with
      | [] => some (.web bs bh bp bt)
      | '/' :: '/' :: r2 =>
        let hr := splitHostRest r2
        (match validHost hr.1 with
         | none => none
         | some h =>
           let pt := splitPathTail hr.2
           some (.web bs (String.mk h)
             (if pt.1.isEmpty then "/" else String.mk pt.1) (String.mk pt.2)))
      | '/' :: _ =>
        let pt := splitPathTail href.data
        some (.web bs bh (String.mk pt.1) (String.mk pt.2))
      | '#' :: _ => some (.web bs bh bp (String.mk href.data))
      | '?' :: _ => some (.web bs bh bp (String.mk href.data))
      | _ =>
        let dir := (bp.data.reverse.dropWhile (fun c => c ≠ '/')).reverse
        let pt := splitPathTail href.data
        some (.web bs bh (String.mk (dir ++ pt.1)) (String.mk pt.2))
    | _ => none

/-- Serialization of a URL (URL.toString / href). -/
def urlToString : UrlM → String
  | .web sch host path tail => sch ++ "://" ++ host ++ path ++ tail
  | .opaqueU sch rest => sch ++ ":" ++ rest

/-- URL.hostname: empty for opaque-path URLs. -/
def urlHostname : UrlM → String
  | .web _ h _ _ => h
  | .opaqueU _ _ => ""

/-- URL.pathname (for opaque URLs, the opaque path before any query or
fragment, as in JS). -/
def urlPathname : UrlM → String
  | .web _ _ p _ => p
  | .opaqueU _ rest => String.mk (splitPathTail rest.data).1

/-- Embedding of resolveUrl, src/unnamed/part_013 lines 1068-1074:
absolute form of an href, falling back to the raw href on error. -/
def resolveUrlStr (href baseUrl : String) : String :=
  match resolveUrl? href baseUrl with
  | some u => urlToString u
  | none => href

/-- One anchor of a fetched homepage: its href attribute and its
visible text, as scanned by findSponsorPages. -/
structure Anchor where
  href : String
  text : String
deriving DecidableEq, Repr

/-- Keyword set of findSponsorPages (src/unnamed/part_013 lines 191-198). -/
def sponsorKeywords : List String :=
  ["sponsor", "partner", "supporter", "backer", "donor", "corporate"]

/-- Per-anchor step of findSponsorPages (src/unnamed/part_013 lines
208-233): keyword-match the href and lower-cased text, resolve against
the base URL, apply the same-domain test (resolved URL starts with the
base URL, or the raw href starts with "/"), and append if new. -/
def anchorStep (baseUrl : String) (acc : List String) (a : Anchor) : List String :=
  if a.href.data.isEmpty then acc
  else
    let hrefLower := lowers a.href.data
    let txt := lowers a.text.data
    let isRelevant := sponsorKeywords.any
      (fun k => containsL k.data hrefLower || containsL k.data txt)
    if isRelevant then
      match resolveUrl? a.href baseUrl with
      | none => acc
      | some u =>
        let fullUrl := urlToString u
        if hasLead baseUrl.data fullUrl.data || hasLead ['/'] a.href.data then
          if acc.contains fullUrl then acc else acc ++ [fullUrl]
        else acc
    else acc

/-- Embedding of findSponsorPages, src/unnamed/part_013 lines 189-244:
the fetched homepage is abstracted as its anchor list (none models a
failed fetch, which returns the empty accumulator); collect matched
anchors, prepend the homepage if absent, and keep at most 5 pages. -/
def findSponsorPages (baseUrl : String) (homepage : Option (List Anchor)) :
    List String :=
  match homepage with
  | none => []
  | some anchors =>
    let pages := anchors.foldl (anchorStep baseUrl) []
    let withHome := if pages.contains baseUrl then pages else baseUrl :: pages
    withHome.take 5

/-- Base domain used by getExternalUrl (src/unnamed/part_013 lines
1153-1157): strip one leading "www.", then keep the last two
dot-separated labels. -/
def getBaseDomain (hostname : String) : String :=
  let h := if hasLead "www.".data hostname.data
    then hostname.data.drop 4 else hostname.data
  let parts := splitOnCh '.' h
  String.mk (joinWith ['.'] (parts.drop (parts.length - 2)))

/-- Embedding of getExternalUrl, src/unnamed/part_013 lines 1143-1171:
null for empty/fragment/javascript hrefs; otherwise resolve and return
the URL only when its base domain differs from the source page's. -/
def getExternalUrl (href sourceUrl : String) : Option String :=
  if href.data.isEmpty || hasLead ['#'] href.data ||
      hasLead "javascript:".data href.data then none
  else
    match resolveUrl? href sourceUrl, parseAbsUrl sourceUrl with
    | some r, some s =>
      if getBaseDomain (urlHostname r) ≠ getBaseDomain (urlHostname s)
      then some (urlToString r) else none
    | _, _ => none

/-- Known non-sponsor domains skipped by extractCompanyNameFromUrl
(src/unnamed/part_013 lines 1097-1115). -/
def skipDomains : List String :=
  ["facebook", "twitter", "instagram", "linkedin", "youtube", "tiktok",
   "google", "apple", "amazon", "microsoft", "cloudfront", "amazonaws",
   "cloudinary", "imgix", "squarespace", "wixstatic", "shopify"]

/-- First TLD-stripping replacement of extractCompanyNameFromUrl:
regex dot (com|net|org|io|co|biz|info) (dot [a-z]{2})? dollar, /i,
expressed on the dot-separated labels of the (lower-case) hostname. -/
def stripTld1 (labels : List (List Char)) : List (List Char) :=
  let tlds := ["com", "net", "org", "io", "co", "biz", "info"]
  let n := labels.length
  if decide (3 ≤ n) &&
      (match labels.get? (n - 2) with
       | some t => tlds.any (fun w => w.data = t)
       | none => false) &&
      (match labels.get? (n - 1) with
       | some cc => decide (cc.length = 2) && cc.all isAlphaCh
       | none => false) then
    labels.take (n - 2)
  else if decide (2 ≤ n) &&
      (match labels.get? (n - 1) with
       | some t => tlds.any (fun w => w.data = t)
       | none => false) then
    labels.take (n - 1)
  else labels

/-- Second TLD-stripping replacement: regex dot [a-z]{2,3} dollar, /i. -/
def stripTld2 (labels : List (List Char)) : List (List Char) :=
  let n := labels.length
  if decide (2 ≤ n) &&
      (match labels.get? (n - 1) with
       | some t => (decide (t.length = 2) || decide (t.length = 3)) && t.all isAlphaCh
       | none => false) then
    labels.take (n - 1)
  else labels

/-- Capitalize a word: first character upper-cased, remainder
lower-cased (JS charAt(0).toUpperCase() + slice(1).toLowerCase()). -/
def capFirstLower : List Char → List Char
  | [] => []
  | c :: cs => toUpperCh c :: lowers cs

/-- Embedding of extractCompanyNameFromUrl, src/unnamed/part_013 lines
1080-1137: hostname minus www and TLDs, skip known hosting/social
domains, separators to spaces, words capitalized, 2-40 chars with a
letter. -/
def extractCompanyNameFromUrl (url : String) : Option String :=
  if url.data.isEmpty then none
  else
    match parseAbsUrl url with
    | none => none
    | some u =>
      let hostname0 := urlHostname u
      let h1 := if hasLead "www.".data hostname0.data
        then hostname0.data.drop 4 else hostname0.data
      let labels := stripTld2 (stripTld1 (splitOnCh '.' h1))
      let name1 := joinWith ['.'] labels
      if skipDomains.any (fun d => containsL d.data name1) then none
      else
        let name2 := name1.map (fun c => if c = '-' || c = '_' then ' ' else c)
        let name3 := joinWith [' '] ((splitOnCh ' ' name2).map capFirstLower)
        if name3.length < 2 || 40 < name3.length then none
        else if !(name3.any isAlphaCh) then none
        else some (String.mk name3)

/-- One image element with the attributes consulted by
extractSponsorNameFromImage; parentHref is the href of the closest
enclosing anchor. -/
structure ImgElem where
  alt : Option String := none
  title : Option String := none
  src : Option String := none
  parentHref : Option String := none
deriving DecidableEq, Repr

/-- Strip a filename extension: regex dot [^.]+ dollar (single
replace). -/
def stripExt (l : List Char) : List Char :=
  let rev := l.reverse
  let run := rev.takeWhile (fun c => c ≠ '.')
  if run.isEmpty then l
  else
    match rev.drop run.length with
    | '.' :: rest => rest.reverse
    | _ => l

/-- Strip a size suffix: regex hyphen digit-plus x digit-plus dollar. -/
def stripSizeSuf (l : List Char) : List Char :=
  let rev := l.reverse
  let d1 := rev.takeWhile isDigitCh
  if d1.isEmpty then l
  else
    match rev.drop d1.length with
    | 'x' :: r2 =>
      let d2 := r2.takeWhile isDigitCh
      if d2.isEmpty then l
      else
        match r2.drop d2.length with
        | '-' :: r3 => r3.reverse
        | _ => l
    | _ => l

/-- Embedding of extractSponsorNameFromImage, src/unnamed/part_013
lines 561-634: alt text, then title, then the company name implied by
the enclosing link's URL, then (strictest) the image filename. -/
def extractSponsorNameFromImage (img : ImgElem) : Option String :=
  let tryAlt : Option String :=
    match img.alt with
    | some a =>
      let altT := String.mk (trimL a.data)
      if altT.data.isEmpty then none
      else
        let cleanedAlt := cleanSponsorName altT
        if !cleanedAlt.data.isEmpty && isValidSponsorName cleanedAlt
        then some cleanedAlt else none
    | none => none
  match tryAlt with
  | some n => some n
  | none =>
    let tryTitle : Option String :=
      match img.title with
      | some a =>
        let titleT := String.mk (trimL a.data)
        if titleT.data.isEmpty then none
        else
          let cleanedTitle := cleanSponsorName titleT
          if !cleanedTitle.data.isEmpty && isValidSponsorName cleanedTitle
          then some cleanedTitle else none
      | none => none
    match tryTitle with
    | some n => some n
    | none =>
      let tryHref : Option String :=
        match img.parentHref with
        | some h =>
          if !h.data.isEmpty && hasLead "http".data h.data then
            match extractCompanyNameFromUrl h with
            | some n => if isValidSponsorName n then some n else none
            | none => none
          else none
        | none => none
      match tryHref with
      | some n => some n
      | none =>
        match img.src with
        | some srcS =>
          if srcS.data.isEmpty then none
          else
            match resolveUrl? srcS "https://example.com" with
            | none => none
            | some u =>
              let pathname := urlPathname u
              let filename := (splitOnCh '/' pathname.data).getLastD []
              let f1 := stripSizeSuf (stripExt filename)
              let f2 := f1.map (fun c => if c = '-' || c = '_' then ' ' else c)
              let f3 := trimL (collapseWs f2)
              let nameFromFile := cleanSponsorName (String.mk f3)
              if !nameFromFile.data.isEmpty && isValidSponsorName nameFromFile then
                let words := (splitOnCh ' ' nameFromFile.data).filter
                  (fun w => 1 < w.length)
                if 2 ≤ words.length then some nameFromFile
                else if hasBusinessSuffix nameFromFile.data then some nameFromFile
                else none
              else none
        | none => none

/-- One following-sibling element of a heading, as walked by the third
extraction strategy: whether it is itself an h1-h4 heading, and the
images found inside it. -/
structure SibElem where
  isHeading : Bool := false
  imgs : List ImgElem := []
deriving DecidableEq, Repr

/-- One h1-h4 heading with its following-sibling elements. -/
structure HeadingSection where
  headingText : String
  siblings : List SibElem := []
deriving DecidableEq, Repr

/-- Tier inference of the third extraction strategy
(src/unnamed/part_013 lines 817-828), keyword-matching the lower-cased
heading text. -/
def headingTier (lowerHeading : List Char) : Option String :=
  if containsL "major".data lowerHeading ||
      containsL "principal".data lowerHeading then some "Major"
  else if containsL "gold".data lowerHeading then some "Gold"
  else if containsL "silver".data lowerHeading then some "Silver"
  else if containsL "bronze".data lowerHeading then some "Bronze"
  else if containsL "community".data lowerHeading then some "Community"
  else none

/-- Sibling walk of the third strategy (src/unnamed/part_013 lines
831-863): collect following siblings, stopping at the next h1-h4
heading, for at most 10 iterations. -/
def scanSiblings : Nat → List SibElem → List SibElem
  | 0, _ => []
  | _ + 1, [] => []
  | n + 1, e :: rest => if e.isHeading then [] else e :: scanSiblings n rest

/-- Sponsor built from one image inside a heading-scoped section
(src/unnamed/part_013 lines 838-859). -/
def sponsorFromImage (url : String) (tier : Option String) (img : ImgElem) :
    Option ScrapedSponsor :=
  match extractSponsorNameFromImage img with
  | none => none
  | some name =>
    some { name := cleanSponsorName name
           tier := tier
           sourceUrl := url
           logoUrl :=
             match img.src with
             | some s => if s.data.isEmpty then none else some (resolveUrlStr s url)
             | none => none
           websiteUrl := getExternalUrl ((img.parentHref).getD "") url }

/-- Third extraction strategy for one heading (src/unnamed/part_013
lines 807-865): headings mentioning sponsor/partner/supporter get a
tier inferred from their text, and images of up to 10 following
siblings (stopping at the next heading) become sponsors carrying that
tier. -/
def strategy3Heading (url : String) (h : HeadingSection) : List ScrapedSponsor :=
  let lowerT := lowers h.headingText.data
  if containsL "sponsor".data lowerT || containsL "partner".data lowerT ||
      containsL "supporter".data lowerT then
    let tier := headingTier lowerT
    (scanSiblings 10 h.siblings).flatMap
      (fun e => e.imgs.filterMap (sponsorFromImage url tier))
  else []

/-- Third extraction strategy over all h1-h4 headings of a page. -/
def extractStrategy3 (url : String) (headings : List HeadingSection) :
    List ScrapedSponsor :=
  headings.flatMap (strategy3Heading url)

end SponsorScrape

namespace SponsorCleanup

open SponsorScrape

/-- Embedding of the cleanup route's isGarbageText,
src/unnamed/part_003 lines 9-46: like the scraper's classifier but with
a shorter filename-pattern list (IMG/DSC/Photo, timestamp, dimensions,
extensions), a shorter keyword list, and no hash-share check. -/
def isGarbageText (text : String) : Bool :=
  let cs := text.data
  if cs.isEmpty then true
  else
    let hashToks := (wsTokens cs).filter (fun w => runGe isAlnumCh 12 w 0)
    if !hashToks.isEmpty then true
    else if imgNumLead "img".data cs || imgNumLead "dsc".data cs ||
        imgNumLead "photo".data cs || anyPos tsAt cs || anyPos dimAt cs ||
        endsWithAnyCI [".jpg", ".jpeg", ".png", ".gif", ".svg", ".webp",
          ".pdf"] cs then true
    else if ["cmyk", "rgb", "lockup", "tagline", "positive", "negative",
        "stacked", "horizontal", "vertical", "copy of", "scaled",
        "cropped", "resized", "thumbnail", "preview", "artwork"].any
        (fun k => containsL k.data (lowers cs)) then true
    else anyPos hashSeqAt cs

/-- Design-term removal regexes of the cleanup route's cleanSponsorName
(src/unnamed/part_003 lines 67-74). -/
def garbageTerms3 : List (List RePart) :=
  [[.ws1, .lit "cmyk", .wb],
   [.ws1, .lit "rgb", .wb],
   [.ws1, .lit "lockup", .wb],
   [.ws1, .lit "with", .ws1, .lit "tagline", .wb],
   [.ws1, .lit "tagline", .wb],
   [.ws1, .lit "positive", .wb],
   [.ws1, .lit "negative", .wb],
   [.ws1, .lit "stacked", .wb],
   [.ws1, .lit "horizontal", .wb],
   [.ws1, .lit "vertical", .wb],
   [.ws1, .lit "artwork", .wb],
   [.ws1, .lit "thumbnail", .wb],
   [.ws1, .lit "preview", .wb],
   [.ws1, .lit "draft", .wb],
   [.ws1, .lit "v", .digits1, .wb],
   [.ws1, .lit "final", .wb]]

/-- First anchored prefix strip of the cleanup route: regex caret
(principal|major|gold|silver|bronze|official|community) ws+
(partner|sponsor) ws+ (logo ws+)? (of ws+)? (partner ws+)? (/i). -/
def cleanupPre1 (l : List Char) : List Char :=
  (do
    let r1 ← eatAlt ["principal", "major", "gold", "silver", "bronze",
      "official", "community"] l
    let r2 ← eatWs1 r1
    let r3 ← eatAlt ["partner", "sponsor"] r2
    let r4 ← eatWs1 r3
    let r5 := eatOpt (fun x => do
      let a ← eatLit "logo" x
      eatWs1 a) r4
    let r6 := eatOpt (fun x => do
      let a ← eatLit "of" x
      eatWs1 a) r5
    let r7 := eatOpt (fun x => do
      let a ← eatLit "partner" x
      eatWs1 a) r6
    pure r7).getD l

/-- Second anchored prefix strip of the cleanup route: regex caret logo
ws+ (of ws+)? (partner ws+)? (/i). -/
def cleanupPre2 (l : List Char) : List Char :=
  (do
    let r1 ← eatLit "logo" l
    let r2 ← eatWs1 r1
    let r3 := eatOpt (fun x => do
      let a ← eatLit "of" x
      eatWs1 a) r2
    let r4 := eatOpt (fun x => do
      let a ← eatLit "partner" x
      eatWs1 a) r3
    pure r4).getD l

/-- Word capitalization step of the cleanup route's cleanSponsorName
(src/unnamed/part_003 lines 92-106): keep 2-6 letter all-caps acronyms
and interior-capital mixed-case words, otherwise capitalize the first
letter and lower-case the rest. -/
def capWord (w : List Char) : List Char :=
  if 2 ≤ w.length && w.length ≤ 6 && w = w.map toUpperCh && w.all isUpperCh
  then w
  else if (match w with
    | c :: rest =>
      isUpperCh c &&
        (let lw := rest.takeWhile isLowerCh
         1 ≤ lw.length &&
           (match rest.drop lw.length with
            | d :: _ => isUpperCh d
            | [] => false))
    | [] => false) then w
  else capFirstLower w

/-- Embedding of the cleanup route's cleanSponsorName,
src/unnamed/part_003 lines 51-115: hash/dimension/timestamp/design-term
removal, two prefix strips, three suffix strips, whitespace collapse,
acronym-preserving re-capitalization, and null for results that are too
short or still garbage. -/
def cleanSponsorName (text : String) : Option String :=
  if text.data.isEmpty then none
  else
    let c1 := stripTrailingHash text.data
    let c2 := scanReplace midHashMatchLen [] c1
    let c3 := scanReplace dimMatchLen [' '] c2
    let c4 := scanReplace tsMatchLen [' '] c3
    let c5 := garbageTerms3.foldl
      (fun acc t => scanReplace (rePartsLen t) [] acc) c4
    let c6 := cleanupPre2 (cleanupPre1 c5)
    let c7 := stripSufPat [.ws0, .lit "partner"]
      (stripSufPat [.ws0, .lit "sponsor"]
        (stripSufPat [.ws0, .lit "logo"] c6))
    let c8 := trimL (collapseWs c7)
    let c9 :=
      if 2 ≤ c8.length then
        joinWith [' '] ((splitOnCh ' ' c8).map capWord)
      else c8
    if c9.length < 2 || isGarbageText (String.mk c9) then none
    else some (String.mk c9)

end SponsorCleanup

namespace ContactDiscovery

open SponsorScrape

/-- Source tag of a discovered contact
(src/src/services/contact-discovery.ts line 55). -/
inductive ContactSource where
  | website
  | api
  | pattern
deriving DecidableEq, Repr

/-- Confidence level of a discovered contact (line 56). -/
inductive Confidence where
  | high
  | medium
  | low
deriving DecidableEq, Repr

/-- Embedding of the ContactInfo interface
(src/src/services/contact-discovery.ts lines 49-58). -/
structure ContactInfo where
  email : Option String := none
  phone : Option String := none
  contactName : Option String := none
  contactRole : Option String := none
  linkedIn : Option String := none
  source : ContactSource
  confidence : Confidence
  verified : Option Bool := none
deriving DecidableEq, Repr

/-- Embedding of extractDomain (lines 518-532): hostname of the
website URL (https-prefixed when schemeless) minus a leading www, with
the manual string-stripping fallback of the catch branch. -/
def extractDomain (website : Option String) : Option String :=
  match website with
  | none => none
  | some w =>
    let url := if hasLead "http".data w.data then w
      else String.mk ("https://".data ++ w.data)
    match parseAbsUrl url with
    | some u =>
      let h := (urlHostname u).data
      some (String.mk (if hasLead "www.".data h then h.drop 4 else h))
    | none =>
      let s1 := if hasLead "https://".data w.data then w.data.drop 8
        else if hasLead "http://".data w.data then w.data.drop 7
        else w.data
      let s2 := if hasLead "www.".data s1 then s1.drop 4 else s1
      some (String.mk (s2.takeWhile (fun c => c ≠ '/')))

/-- End-anchored strip of the legal-suffix regex of guessDomain:
ws-plus (pty|ltd|limited|inc|corp|co|australia|aus) dollar, /i
(applied to already lower-cased text). -/
def stripLegalSuf (l : List Char) : List Char :=
  let alts := ["pty", "ltd", "limited", "inc", "corp", "co", "australia",
    "aus"]
  match alts.findSome? (fun w =>
    if endsWithL w.data l then
      let rev := (l.take (l.length - w.data.length)).reverse
      let ws := rev.takeWhile isWsChar
      if 1 ≤ ws.length then some ((rev.drop ws.length).reverse) else none
    else none) with
  | some r => r
  | none => l

/-- Embedding of guessDomain (lines 537-550): decode, lower-case, keep
alphanumerics and spaces, strip a legal suffix, remove whitespace, and
append .com.au; null under 3 characters. -/
def guessDomain (companyName : String) : Option String :=
  let decoded := cleanAndDecodeText companyName
  let c1 := (lowers decoded.data).filter
    (fun c => isLowerCh c || isDigitCh c || isWsChar c)
  let c2 := stripLegalSuf c1
  let c3 := c2.filter (fun c => !isWsChar c)
  if c3.length < 3 then none else some (String.mk (c3 ++ ".com.au".data))

/-- Embedding of guessEmails (lines 457-492): with an API key, verify
info@ and contact@ guesses (stopping at the first hit, medium
confidence, verified); otherwise, or when none verifies, a single
unverified low-confidence info@ guess.  The network verifier is
abstracted as the oracle `verifies`. -/
def guessEmails (domain : String) (hunterKey : Bool)
    (verifies : String → Bool) : List ContactInfo :=
  let verifiedHit : Option String :=
    if hunterKey then
      ["info", "contact"].findSome? (fun p =>
        let em := p ++ "@" ++ domain
        if verifies em then some em else none)
    else none
  match verifiedHit with
  | some em =>
    [{ email := some em, source := .pattern, confidence := .medium,
       verified := some true }]
  | none =>
    [{ email := some ("info@" ++ domain), source := .pattern,
       confidence := .low, verified := some false }]

/-- Environment of one discoverContacts invocation: the inputs plus the
outputs of the network-bound strategy helpers, passed as data.
`scrapedContacts` is what scrapeWebsiteForContacts(website) returned,
`socialLinks` what scrapeSocialLinks(website) returned, `apiContacts`
what findEmailViaHunter(website) returned, and `verifies` the Hunter
email-verifier oracle used by guessEmails. -/
structure DiscoveryEnv where
  companyName : String
  website : Option String := none
  scrapedContacts : List ContactInfo := []
  socialLinks : List String := []
  hunterKey : Bool := false
  apiContacts : List ContactInfo := []
  verifies : String → Bool := fun _ => false

/-- Contacts accumulated by strategy 1 (lines 142-167): the scraped
contacts plus a medium-confidence website-source entry per LinkedIn
link; nothing when no website was given. -/
def websiteContacts (env : DiscoveryEnv) : List ContactInfo :=
  if env.website.isSome then
    env.scrapedContacts ++ env.socialLinks.map (fun l =>
      { linkedIn := some l, source := .website, confidence := .medium })
  else []

/-- Guard of strategy 2 (lines 169-176): some contact so far has an
email at high confidence. -/
def hasHighConfidenceEmail (cs : List ContactInfo) : Bool :=
  cs.any (fun c => c.email.isSome && c.confidence == .high)

/-- Whether strategy 2 (the Hunter API lookup) runs. -/
def apiRan (env : DiscoveryEnv) : Bool :=
  !hasHighConfidenceEmail (websiteContacts env) && env.hunterKey &&
    env.website.isSome

/-- Contact list after strategies 1 and 2. -/
def contactsAfterApi (env : DiscoveryEnv) : List ContactInfo :=
  websiteContacts env ++ (if apiRan env then env.apiContacts else [])

/-- Guard of strategy 3 (lines 188-192): the pattern-guess strategy
runs exactly when no contact so far carries an email. -/
def patternRan (env : DiscoveryEnv) : Bool :=
  !(contactsAfterApi env).any (fun c => c.email.isSome)

/-- Contacts produced by strategy 3 (lines 192-208): guesses against
the extracted domain, falling back to a domain guessed from the decoded
company name. -/
def patternContacts (env : DiscoveryEnv) : List ContactInfo :=
  match extractDomain env.website with
  | some d => guessEmails d env.hunterKey env.verifies
  | none =>
    match guessDomain (cleanAndDecodeText env.companyName) with
    | some d => guessEmails d env.hunterKey env.verifies
    | none => []

/-- Deduplication key of a contact (line 600): the email when truthy,
else the LinkedIn URL when truthy, else the empty string. -/
def contactKey (c : ContactInfo) : String :=
  if strTruthy c.email then c.email.getD ""
  else if strTruthy c.linkedIn then c.linkedIn.getD "" else ""

/-- Worker of deduplicateContacts with the set of seen keys. -/
def dedupContactsAux : List String → List ContactInfo → List ContactInfo
  | _, [] => []
  | seen, c :: cs =>
    if (contactKey c).data.isEmpty || seen.contains (contactKey c) then
      dedupContactsAux seen cs
    else c :: dedupContactsAux (contactKey c :: seen) cs

/-- Embedding of deduplicateContacts (lines 597-605): keep the first
contact per email-else-linkedIn key, dropping keyless contacts. -/
def deduplicateContacts (contacts : List ContactInfo) : List ContactInfo :=
  dedupContactsAux [] contacts

/-- Embedding of the contact list computed by discoverContacts
(src/src/services/contact-discovery.ts lines 128-213) over a strategy
environment: strategy 1 always (when a website is given), strategy 2
when no high-confidence email was found and a key and website exist,
strategy 3 when no email at all was found, then deduplication. -/
def discoverContacts (env : DiscoveryEnv) : List ContactInfo :=
  let base := contactsAfterApi env
  let all := if patternRan env then base ++ patternContacts env else base
  deduplicateContacts all

end ContactDiscovery

namespace SponsorScrape

/-- Helper: a name accepted by isValidSponsorName is 2 to 100 characters
long (the classifier's first check). -/
theorem isValid_length (n : String) (h : isValidSponsorName n = true) :
    2 ≤ n.data.length ∧ n.data.length ≤ 100 := by
  unfold isValidSponsorName at h
  split at h
  · exact absurd h (by simp)
  · next hc =>
    simp only [Bool.or_eq_true, decide_eq_true_eq, not_or] at hc
    omega

/-- C1: every sponsor in the result of the scrape pipeline (deduplication
followed by the final validation filter of scrapeClubSponsors; page
fetching is abstracted as the candidate list) has a name accepted by
isValidSponsorName — hence passing the garbage classifier and blocklist —
of 2 to 100 characters, and is the cleaned form of a deduplicated
candidate whose cleaned name passed validation; candidates failing
validation contribute nothing. -/
theorem c1_scrape_result_valid (allSponsors : List ScrapedSponsor)
    (s : ScrapedSponsor) (hs : s ∈ scrapeResultSponsors allSponsors) :
    isValidSponsorName s.name = true ∧
      2 ≤ s.name.data.length ∧ s.name.data.length ≤ 100 ∧
      ∃ t ∈ deduplicateSponsors allSponsors,
        s = { t with name := cleanSponsorName t.name } ∧
          isValidSponsorName (cleanSponsorName t.name) = true := by
  unfold scrapeResultSponsors at hs
  rw [List.mem_filterMap] at hs
  obtain ⟨t, ht, hft⟩ := hs
  unfold finalizeSponsor at hft
  split at hft
  · exact absurd hft (by simp)
  · simp only [] at hft
    split at hft
    · next hvalid =>
      injection hft with hEq
      have hb := isValid_length _ hvalid
      refine ⟨?_, ?_, ?_, t, ht, hEq.symm, hvalid⟩
      · rw [← hEq]; exact hvalid
      · rw [← hEq]; exact hb.1
      · rw [← hEq]; exact hb.2
    · exact absurd hft (by simp)

/-- Witness for C1 at a concrete candidate list: the valid candidate
"Alan Mance Electrical" survives unchanged while the garbage candidate
"IMG_4821.jpg" is discarded. -/
theorem c1_scrape_result_valid_witness :
    isValidSponsorName
        (ScrapedSponsor.mk "Alan Mance Electrical" none none none
          "https://club.example/").name = true ∧
      2 ≤ (ScrapedSponsor.mk "Alan Mance Electrical" none none none
          "https://club.example/").name.data.length ∧
      (ScrapedSponsor.mk "Alan Mance Electrical" none none none
          "https://club.example/").name.data.length ≤ 100 ∧
      ∃ t ∈ deduplicateSponsors
          [ScrapedSponsor.mk "Alan Mance Electrical" none none none
            "https://club.example/",
           ScrapedSponsor.mk "IMG_4821.jpg" (some "https://club.example/i.jpg")
            none none "https://club.example/"],
        ScrapedSponsor.mk "Alan Mance Electrical" none none none
            "https://club.example/" =
          { t with name := cleanSponsorName t.name } ∧
          isValidSponsorName (cleanSponsorName t.name) = true :=
  c1_scrape_result_valid
    [ScrapedSponsor.mk "Alan Mance Electrical" none none none
      "https://club.example/",
     ScrapedSponsor.mk "IMG_4821.jpg" (some "https://club.example/i.jpg")
      none none "https://club.example/"]
    (ScrapedSponsor.mk "Alan Mance Electrical" none none none
      "https://club.example/")
    (by decide)

/-- Helper: a non-empty string holding a truthy optional field. -/
theorem strTruthy_some_ne (v : String) (h : v ≠ "") :
    strTruthy (some v) = true := by
  cases v with
  | mk d =>
    cases d with
    | nil => exact absurd rfl h
    | cons c cs => rfl

/-- Helper: an absent optional field is falsy. -/
theorem strTruthy_none : strTruthy none = false := rfl

/-- C2 counterexample: "Acme" and "Acme " share the same lower-cased
TRIMMED name key, yet deduplicateSponsors keeps them as two separate
entries — the code keys on the lower-cased name without trimming, so
the claimed merge (which would leave one entry holding both fields)
does not happen. -/
theorem c2_counterexample :
    toLowerStr (String.mk (trimL "Acme".data)) =
        toLowerStr (String.mk (trimL "Acme ".data)) ∧
      (deduplicateSponsors
        [ScrapedSponsor.mk "Acme" (some "https://a.example/logo.png") none
          none "u",
         ScrapedSponsor.mk "Acme " none (some "https://acme.example/") none
          "u"]).length = 2 := by decide

/-- C2 amended: the merge key is the lower-cased, untrimmed name.  Two
candidates with equal lower-cased names merge into the first-seen
entity; populated (truthy) fields of the kept entity are never
overwritten, and absent fields are backfilled from the duplicate's
truthy fields — so a logo-only candidate merged with a website-only
duplicate carries both. -/
theorem c2_dedup_merge (s1 s2 : ScrapedSponsor)
    (h : toLowerStr s1.name = toLowerStr s2.name) :
    deduplicateSponsors [s1, s2] = [mergeSponsor s1 s2] ∧
      (mergeSponsor s1 s2).name = s1.name ∧
      (∀ v : String, s1.logoUrl = some v → v ≠ "" →
        (mergeSponsor s1 s2).logoUrl = some v) ∧
      (∀ v : String, s1.logoUrl = none → s2.logoUrl = some v → v ≠ "" →
        (mergeSponsor s1 s2).logoUrl = some v) ∧
      (∀ v : String, s1.websiteUrl = some v → v ≠ "" →
        (mergeSponsor s1 s2).websiteUrl = some v) ∧
      (∀ v : String, s1.websiteUrl = none → s2.websiteUrl = some v → v ≠ "" →
        (mergeSponsor s1 s2).websiteUrl = some v) ∧
      (∀ v : String, s1.tier = some v → v ≠ "" →
        (mergeSponsor s1 s2).tier = some v) ∧
      (∀ v : String, s1.tier = none → s2.tier = some v → v ≠ "" →
        (mergeSponsor s1 s2).tier = some v) := by
  refine ⟨?_, rfl, ?_, ?_, ?_, ?_, ?_, ?_⟩
  · unfold deduplicateSponsors
    simp only [List.foldl_cons, List.foldl_nil]
    unfold dedupInsert
    simp [h]
  · intro v hv hne
    simp [mergeSponsor, hv, strTruthy_some_ne v hne]
  · intro v h1 h2 hne
    simp [mergeSponsor, h1, h2, strTruthy_none, strTruthy_some_ne v hne]
  · intro v hv hne
    simp [mergeSponsor, hv, strTruthy_some_ne v hne]
  · intro v h1 h2 hne
    simp [mergeSponsor, h1, h2, strTruthy_none, strTruthy_some_ne v hne]
  · intro v hv hne
    simp [mergeSponsor, hv, strTruthy_some_ne v hne]
  · intro v h1 h2 hne
    simp [mergeSponsor, h1, h2, strTruthy_none, strTruthy_some_ne v hne]

/-- Witness for C2 at the claim's example: a logo-only "Acme" merged
with a website-only "Acme" yields one entity carrying both URLs. -/
theorem c2_dedup_merge_witness :
    deduplicateSponsors
        [ScrapedSponsor.mk "Acme" (some "https://a.example/logo.png") none
          none "u",
         ScrapedSponsor.mk "Acme" none (some "https://acme.example/") none
          "u"] =
      [ScrapedSponsor.mk "Acme" (some "https://a.example/logo.png")
        (some "https://acme.example/") none "u"] :=
  ((c2_dedup_merge
      (ScrapedSponsor.mk "Acme" (some "https://a.example/logo.png") none
        none "u")
      (ScrapedSponsor.mk "Acme" none (some "https://acme.example/") none
        "u") (by decide)).1).trans (by decide)

/-- C5: the garbage classifier accepts exactly the spec's examples:
true on "IMG_4821.jpg", "qmp0samij3o2ocrz733c6zhl8gptmup79p" and
"Logo Stacked CMYK", and false on "Alan Mance Electrical". -/
theorem c5_garbage_examples :
    isGarbageText "IMG_4821.jpg" = true ∧
    isGarbageText "qmp0samij3o2ocrz733c6zhl8gptmup79p" = true ∧
    isGarbageText "Logo Stacked CMYK" = true ∧
    isGarbageText "Alan Mance Electrical" = false := by decide

/-- C3 counterexample: cleanSponsorName is not idempotent; on
"ab logo logo" one pass yields "ab logo" (the single end-anchored
suffix replacement removes only the last " logo"), and a second pass
yields "ab". -/
theorem c3_counterexample :
    cleanSponsorName (cleanSponsorName "ab logo logo") ≠
      cleanSponsorName "ab logo logo" ∧
    cleanSponsorName "ab logo logo" = "ab logo" ∧
    cleanSponsorName "ab logo" = "ab" := by decide

/-- C3 amended: idempotence of cleanSponsorName fails in general (see
the counterexample), but holds on the spec's sample inputs, including
garbage inputs that clean to the empty string. -/
theorem c3_idempotent_on_samples :
    cleanSponsorName (cleanSponsorName "Logo of partner Mission Foods") =
      cleanSponsorName "Logo of partner Mission Foods" ∧
    cleanSponsorName (cleanSponsorName
        "GODFATHERS LOGO QMCLDZA1S5C5DE3JRJJ5VUWE3GP0CMQTUU7DYZAQKG") =
      cleanSponsorName
        "GODFATHERS LOGO QMCLDZA1S5C5DE3JRJJ5VUWE3GP0CMQTUU7DYZAQKG" ∧
    cleanSponsorName (cleanSponsorName "IMG_4821.jpg") =
      cleanSponsorName "IMG_4821.jpg" ∧
    cleanSponsorName (cleanSponsorName "Alan Mance Electrical") =
      cleanSponsorName "Alan Mance Electrical" := by decide

/-- C4 counterexample: the scraper module's cleanSponsorName
(src/unnamed/part_013) performs no title-casing; on the spec's
GODFATHERS example it returns the all-caps "GODFATHERS", not
"Godfathers". -/
theorem c4_counterexample :
    cleanSponsorName
        "GODFATHERS LOGO QMCLDZA1S5C5DE3JRJJ5VUWE3GP0CMQTUU7DYZAQKG" =
      "GODFATHERS" ∧
    cleanSponsorName
        "GODFATHERS LOGO QMCLDZA1S5C5DE3JRJJ5VUWE3GP0CMQTUU7DYZAQKG" ≠
      "Godfathers" := by decide

/-- C4 amended: the title-casing clean lives in the cleanup route
(src/unnamed/part_003), whose cleanSponsorName maps the spec's examples
to "Mission Foods" and "Godfathers", preserves 2-6 letter all-caps
acronyms (NAB) and interior-capital words (McDonald), and title-cases
other words; the scraper module's cleanSponsorName agrees on the
Mission Foods example but returns "GODFATHERS" un-recased. -/
theorem c4_amended :
    SponsorCleanup.cleanSponsorName "Logo of partner Mission Foods" =
      some "Mission Foods" ∧
    SponsorCleanup.cleanSponsorName
        "GODFATHERS LOGO QMCLDZA1S5C5DE3JRJJ5VUWE3GP0CMQTUU7DYZAQKG" =
      some "Godfathers" ∧
    cleanSponsorName "Logo of partner Mission Foods" = "Mission Foods" ∧
    SponsorCleanup.cleanSponsorName "gold sponsor NAB" = some "NAB" ∧
    SponsorCleanup.cleanSponsorName "McDonald logo" = some "McDonald" ∧
    SponsorCleanup.cleanSponsorName "mission foods" = some "Mission Foods" := by
  decide

/-- Helper: the sibling walk visits at most `n` elements. -/
theorem scanSiblings_length_le (n : Nat) (l : List SibElem) :
    (scanSiblings n l).length ≤ n := by
  induction n generalizing l with
  | zero => simp [scanSiblings]
  | succ k ih =>
    cases l with
    | nil => simp [scanSiblings]
    | cons e rest =>
      unfold scanSiblings
      split
      · simp
      · simpa using Nat.succ_le_succ (ih rest)

/-- Helper: the sibling walk stops at the first heading, so it never
yields a heading element. -/
theorem scanSiblings_not_heading (n : Nat) (l : List SibElem) :
    ∀ e ∈ scanSiblings n l, e.isHeading = false := by
  induction n generalizing l with
  | zero => intro e he; simp [scanSiblings] at he
  | succ k ih =>
    cases l with
    | nil => intro e he; simp [scanSiblings] at he
    | cons x rest =>
      intro e he
      unfold scanSiblings at he
      split at he
      · simp at he
      · next hx =>
        rcases List.mem_cons.mp he with h | h
        · rw [h]; simpa using hx
        · exact ih rest e h

/-- C6 counterexample: for a heading reading "Principal Partners", the
heading-scoped strategy attaches the tier "Major", not the "Principal"
claimed by the spec (the code maps both major and principal to
"Major"). -/
theorem c6_counterexample :
    (strategy3Heading "https://club.example/"
        (HeadingSection.mk "Principal Partners"
          [SibElem.mk false
            [ImgElem.mk (some "Alan Mance Electrical") none none none]])).map
        ScrapedSponsor.tier = [some "Major"] ∧
      (some "Major" : Option String) ≠ some "Principal" := by decide

/-- C6 amended: every sponsor emitted by the heading-scoped strategy
carries the tier inferred from the heading text by the keyword mapping
major/principal to "Major" (not "Principal"), gold to "Gold", silver to
"Silver", bronze to "Bronze" and community to "Community"; at most 10
following siblings are scanned, stopping at the next h1-h4 heading. -/
theorem c6_strategy3_tier (url : String) (h : HeadingSection) :
    (∀ s ∈ strategy3Heading url h,
      s.tier = headingTier (lowers h.headingText.data)) ∧
    (scanSiblings 10 h.siblings).length ≤ 10 ∧
    (∀ e ∈ scanSiblings 10 h.siblings, e.isHeading = false) ∧
    headingTier (lowers "Major Sponsors".data) = some "Major" ∧
    headingTier (lowers "Principal Partners".data) = some "Major" ∧
    headingTier (lowers "Gold Sponsors".data) = some "Gold" ∧
    headingTier (lowers "Silver Sponsors".data) = some "Silver" ∧
    headingTier (lowers "Bronze Sponsors".data) = some "Bronze" ∧
    headingTier (lowers "Community Partners".data) = some "Community" ∧
    headingTier (lowers "Our Sponsors".data) = none := by
  refine ⟨?_, scanSiblings_length_le 10 h.siblings,
    scanSiblings_not_heading 10 h.siblings,
    by decide, by decide, by decide, by decide, by decide, by decide,
    by decide⟩
  intro s hs
  unfold strategy3Heading at hs
  simp only [] at hs
  split at hs
  · rw [List.mem_flatMap] at hs
    obtain ⟨e, he, hse⟩ := hs
    rw [List.mem_filterMap] at hse
    obtain ⟨img, hi, himg⟩ := hse
    unfold sponsorFromImage at himg
    cases hx : extractSponsorNameFromImage img with
    | none => rw [hx] at himg; exact absurd himg (by simp)
    | some nm =>
      rw [hx] at himg
      injection himg with hEq
      rw [← hEq]
  · simp at hs

/-- Witness for C6 at a concrete Gold-Sponsors section: the emitted
sponsor carries tier "Gold" as inferred from the heading. -/
theorem c6_strategy3_tier_witness :
    (ScrapedSponsor.mk "Alan Mance Electrical" none none (some "Gold")
        "https://club.example/").tier =
      headingTier (lowers ("Gold Sponsors" : String).data) :=
  (c6_strategy3_tier "https://club.example/"
      (HeadingSection.mk "Gold Sponsors"
        [SibElem.mk false
          [ImgElem.mk (some "Alan Mance Electrical") none none none]])).1
    (ScrapedSponsor.mk "Alan Mance Electrical" none none (some "Gold")
      "https://club.example/")
    (by decide)

/-- C7 counterexample: with a base URL of
"https://club.com/sponsors" and six keyword-matched links whose sixth
resolves exactly to the base URL, the base URL sits at index 5 of the
collected list, is not re-prepended, and is cut by the 5-page cap — so
the homepage is NOT among the returned pages. -/
theorem c7_counterexample :
    (findSponsorPages "https://club.com/sponsors"
        (some [Anchor.mk "/sponsor-1" "", Anchor.mk "/sponsor-2" "",
          Anchor.mk "/sponsor-3" "", Anchor.mk "/sponsor-4" "",
          Anchor.mk "/sponsor-5" "", Anchor.mk "/sponsors" ""])).length = 5 ∧
      "https://club.com/sponsors" ∉
        findSponsorPages "https://club.com/sponsors"
          (some [Anchor.mk "/sponsor-1" "", Anchor.mk "/sponsor-2" "",
            Anchor.mk "/sponsor-3" "", Anchor.mk "/sponsor-4" "",
            Anchor.mk "/sponsor-5" "", Anchor.mk "/sponsors" ""]) := by decide

/-- C7 amended: findSponsorPages returns at most 5 URLs, and whenever
the homepage URL was not already collected from a matched link it is
prepended and is therefore first (hence present); when it was collected
at position 5 or later, the 5-page cap can drop it (see the
counterexample). -/
theorem c7_pages_amended (baseUrl : String) (page : Option (List Anchor)) :
    (findSponsorPages baseUrl page).length ≤ 5 ∧
      ∀ anchors, page = some anchors →
        (anchors.foldl (anchorStep baseUrl) []).contains baseUrl = false →
        (findSponsorPages baseUrl page).head? = some baseUrl := by
  constructor
  · cases page with
    | none => simp [findSponsorPages]
    | some anchors =>
      simp only [findSponsorPages]
      rw [List.length_take]
      exact Nat.min_le_left 5 _
  · intro anchors hp hc
    rw [hp]
    simp only [findSponsorPages]
    rw [hc]
    simp

/-- Witness for C7: a single matched link leaves the homepage first in
the returned pages. -/
theorem c7_pages_amended_witness :
    (findSponsorPages "https://club.com"
        (some [Anchor.mk "/our-sponsors" "Our Sponsors"])).length ≤ 5 ∧
      (findSponsorPages "https://club.com"
          (some [Anchor.mk "/our-sponsors" "Our Sponsors"])).head? =
        some "https://club.com" :=
  ⟨(c7_pages_amended "https://club.com"
      (some [Anchor.mk "/our-sponsors" "Our Sponsors"])).1,
   (c7_pages_amended "https://club.com"
      (some [Anchor.mk "/our-sponsors" "Our Sponsors"])).2
     [Anchor.mk "/our-sponsors" "Our Sponsors"] rfl (by decide)⟩

/-- C8: the code violates its own same-site restriction (and the
comment "Only include same-domain URLs" directly above the check): a
protocol-relative href such as "//evil.com/sponsors" passes the
href-starts-with-slash branch yet resolves to a different site, so
findSponsorPages returns an off-site URL. -/
theorem c8_offsite_page :
    findSponsorPages "https://club.com"
        (some [Anchor.mk "//evil.com/sponsors" "partners"]) =
      ["https://club.com", "https://evil.com/sponsors"] ∧
    (parseAbsUrl "https://evil.com/sponsors").map urlHostname =
      some "evil.com" ∧
    (parseAbsUrl "https://club.com").map urlHostname = some "club.com" ∧
    getBaseDomain "evil.com" ≠ getBaseDomain "club.com" := by decide

/-- C10: getExternalUrl compares only the last two dot-separated labels
of the hostnames (after stripping a leading www.), so whenever the
resolved link's host shares those labels with the source page's host —
e.g. two different .com.au domains — it returns null, and a sponsor
built from an image whose enclosing link carries that href gets no
websiteUrl. -/
theorem c10_external_null_on_shared_labels (href src : String) (r s : UrlM)
    (hr : resolveUrl? href src = some r) (hs : parseAbsUrl src = some s)
    (hdom : getBaseDomain (urlHostname r) = getBaseDomain (urlHostname s)) :
    getExternalUrl href src = none ∧
      ∀ (tier : Option String) (img : ImgElem) (sp : ScrapedSponsor),
        img.parentHref = some href → sponsorFromImage src tier img = some sp →
        sp.websiteUrl = none := by
  have hmain : getExternalUrl href src = none := by
    unfold getExternalUrl
    split
    · rfl
    · rw [hr, hs]
      simp [hdom]
  refine ⟨hmain, ?_⟩
  intro tier img sp hph hsp
  unfold sponsorFromImage at hsp
  cases hx : extractSponsorNameFromImage img with
  | none => rw [hx] at hsp; exact absurd hsp (by simp)
  | some nm =>
    rw [hx] at hsp
    injection hsp with hEq
    rw [← hEq]
    show getExternalUrl (img.parentHref.getD "") src = none
    rw [hph]
    exact hmain

/-- Witness for C10: a club page on cluba.com.au linking to
sponsorb.com.au — both sharing the labels com.au — yields no external
URL, and the sponsor extracted from such an image has no websiteUrl. -/
theorem c10_witness :
    getExternalUrl "https://sponsorb.com.au" "https://cluba.com.au/sponsors" =
        none ∧
      (ScrapedSponsor.mk "Alan Mance Electrical" none none none
          "https://cluba.com.au/sponsors").websiteUrl = none :=
  ⟨(c10_external_null_on_shared_labels "https://sponsorb.com.au"
      "https://cluba.com.au/sponsors"
      (UrlM.web "https" "sponsorb.com.au" "/" "")
      (UrlM.web "https" "cluba.com.au" "/sponsors" "")
      (by decide) (by decide) (by decide)).1,
   (c10_external_null_on_shared_labels "https://sponsorb.com.au"
      "https://cluba.com.au/sponsors"
      (UrlM.web "https" "sponsorb.com.au" "/" "")
      (UrlM.web "https" "cluba.com.au" "/sponsors" "")
      (by decide) (by decide) (by decide)).2 none
     (ImgElem.mk (some "Alan Mance Electrical") none none
       (some "https://sponsorb.com.au"))
     (ScrapedSponsor.mk "Alan Mance Electrical" none none none
       "https://cluba.com.au/sponsors") rfl (by decide)⟩

end SponsorScrape

namespace ContactDiscovery

/-- Helper: deduplication only filters, so members of the deduplicated
list are members of the input. -/
theorem dedupContactsAux_subset (seen : List String) (l : List ContactInfo) :
    ∀ c ∈ dedupContactsAux seen l, c ∈ l := by
  induction l generalizing seen with
  | nil => intro c hc; simp [dedupContactsAux] at hc
  | cons x xs ih =>
    intro c hc
    unfold dedupContactsAux at hc
    split at hc
    · exact List.mem_cons_of_mem x (ih _ c hc)
    · rcases List.mem_cons.mp hc with h | h
      · rw [h]; exact List.mem_cons_self x xs
      · exact List.mem_cons_of_mem x (ih _ c h)

/-- Helper: every contact accumulated by strategy 1 carries source
website, given that the scraped contacts do (as they do in the source,
where scrapeWebsiteForContacts tags everything website). -/
theorem websiteContacts_source (env : DiscoveryEnv)
    (hscr : ∀ c ∈ env.scrapedContacts, c.source = ContactSource.website) :
    ∀ c ∈ websiteContacts env, c.source = ContactSource.website := by
  intro c hc
  unfold websiteContacts at hc
  split at hc
  · rw [List.mem_append] at hc
    rcases hc with h | h
    · exact hscr c h
    · rw [List.mem_map] at h
      obtain ⟨l, _, hl⟩ := h
      rw [← hl]
  · simp at hc

/-- Helper: guessEmails only emits pattern-source contacts carrying an
email. -/
theorem guessEmails_pattern (domain : String) (k : Bool)
    (v : String → Bool) :
    ∀ c ∈ guessEmails domain k v,
      c.source = ContactSource.pattern ∧ c.email.isSome = true := by
  intro c hc
  unfold guessEmails at hc
  simp only [] at hc
  split at hc
  · rcases List.mem_singleton.mp hc with h
    rw [h]; exact ⟨rfl, rfl⟩
  · rcases List.mem_singleton.mp hc with h
    rw [h]; exact ⟨rfl, rfl⟩

/-- Helper: strategy 3 only emits pattern-source contacts carrying an
email. -/
theorem patternContacts_pattern (env : DiscoveryEnv) :
    ∀ c ∈ patternContacts env,
      c.source = ContactSource.pattern ∧ c.email.isSome = true := by
  intro c hc
  unfold patternContacts at hc
  split at hc
  · exact guessEmails_pattern _ _ _ c hc
  · split at hc
    · exact guessEmails_pattern _ _ _ c hc
    · simp at hc

/-- C9: the pattern-guess strategy runs exactly when neither the
website-scrape strategy nor the enrichment-API strategy produced a
contact carrying an email, and consequently no discovery result ever
contains both a pattern-source contact and an email-bearing
website/api-source contact.  The hypotheses record that the scrape and
API helpers tag their outputs website and api respectively, as they do
in the source. -/
theorem c9_pattern_waterfall (env : DiscoveryEnv)
    (hscr : ∀ c ∈ env.scrapedContacts, c.source = ContactSource.website)
    (hapi : ∀ c ∈ env.apiContacts, c.source = ContactSource.api) :
    (patternRan env = true ↔ ∀ c ∈ contactsAfterApi env, c.email = none) ∧
      ¬ ((∃ c ∈ discoverContacts env, c.source = ContactSource.pattern) ∧
        ∃ c ∈ discoverContacts env, c.email.isSome = true ∧
          (c.source = ContactSource.website ∨
            c.source = ContactSource.api)) := by
  have hiff : patternRan env = true ↔
      ∀ c ∈ contactsAfterApi env, c.email = none := by
    unfold patternRan
    rw [Bool.not_eq_true', List.any_eq_false]
    constructor
    · intro hall c hc
      cases hem : c.email with
      | none => rfl
      | some v => exact absurd (by rw [hem]; rfl) (hall c hc)
    · intro hall c hc
      rw [hall c hc]
      simp
  refine ⟨hiff, ?_⟩
  rintro ⟨⟨cp, hcp, hcps⟩, ⟨ce, hce, hcee, hces⟩⟩
  unfold discoverContacts deduplicateContacts at hcp hce
  simp only [] at hcp hce
  by_cases hpr : patternRan env = true
  · rw [if_pos hpr] at hce
    have hce' := dedupContactsAux_subset _ _ ce hce
    rw [List.mem_append] at hce'
    rcases hce' with h | h
    · have hnone := (hiff.mp hpr) ce h
      rw [hnone] at hcee
      exact absurd hcee (by simp)
    · have hpat := (patternContacts_pattern env ce h).1
      rcases hces with hw | ha
      · rw [hpat] at hw; exact ContactSource.noConfusion hw
      · rw [hpat] at ha; exact ContactSource.noConfusion ha
  · rw [if_neg hpr] at hcp
    have hcp' := dedupContactsAux_subset _ _ cp hcp
    unfold contactsAfterApi at hcp'
    rw [List.mem_append] at hcp'
    rcases hcp' with h | h
    · have hw := websiteContacts_source env hscr cp h
      rw [hw] at hcps
      exact ContactSource.noConfusion hcps
    · by_cases har : apiRan env = true
      · rw [if_pos har] at h
        have ha := hapi cp h
        rw [ha] at hcps
        exact ContactSource.noConfusion hcps
      · rw [if_neg har] at h
        simp at h

/-- Witness for C9 at a concrete environment with no scraped or API
contacts: the pattern strategy fires there, and the exclusivity holds. -/
theorem c9_pattern_waterfall_witness :
    (patternRan
        { companyName := "Acme", website := some "https://acme.com.au" } =
          true ↔
      ∀ c ∈ contactsAfterApi
          { companyName := "Acme", website := some "https://acme.com.au" },
        c.email = none) ∧
      ¬ ((∃ c ∈ discoverContacts
            { companyName := "Acme", website := some "https://acme.com.au" },
          c.source = ContactSource.pattern) ∧
        ∃ c ∈ discoverContacts
            { companyName := "Acme", website := some "https://acme.com.au" },
          c.email.isSome = true ∧
            (c.source = ContactSource.website ∨
              c.source = ContactSource.api)) :=
  c9_pattern_waterfall
    { companyName := "Acme", website := some "https://acme.com.au" }
    (by intro c hc; simp at hc) (by intro c hc; simp at hc)

end ContactDiscovery
